import Mathlib

/-!
# AgentPayments gate — shallow embedding

This file embeds the request-handling core of the AgentPayments HTTP gate:

* the Express/Node backend-verify middleware (`agentPaymentsGate` in
  `src/unnamed/part_022`, first document), and
* the edge runtime gate (`createEdgeGate` in `src/sdk/edge/index.js`),

together with their shared helpers (HMAC-keyed agent keys, payment-memo
derivation, signed cookies and nonces, the payment cache, and the fixed-window
rate limiter).

JavaScript strings are modelled as `List Char` (`Str`); library primitives
(`String.prototype.slice`, `indexOf`, `Number.parseInt`, `Buffer.from`,
`crypto.timingSafeEqual`) are modelled by small explicit functions.  The
cryptographic digest `crypto.createHmac('sha256', secret)` is an external
library routine, so it enters the model as a function parameter
`hmac : Str → Str → Str`, about which theorems assume only what the gate's
logic needs (64 lowercase hex characters of output, `HexOut`).
-/

/-- JavaScript strings are modelled as lists of characters (all strings the
gate manipulates are in the basic plane, where JS `.length`/`.slice` agree
with the character count). -/
abbrev Str := List Char

/-- Character data of a Lean string literal, used to write `Str` constants. -/
def str (s : String) : Str := s.data

/-- Model of JavaScript `a.startsWith(b)`. -/
def jsStartsWith (s pre : Str) : Bool := pre.isPrefixOf s

/-- Model of JavaScript `s.indexOf(c)` for a one-character needle:
`some i` is the first index of `c`, `none` models the return value `-1`. -/
def charIndexOf : Str → Char → Option Nat
  | [], _ => none
  | a :: as, c => if a = c then some 0 else (charIndexOf as c).map (· + 1)

/-- Digits of a decimal numeral, value of the accumulated prefix. -/
def digitsToNat (l : Str) : Nat :=
  l.foldl (fun a c => a * 10 + (c.toNat - 48)) 0

/-- Longest leading run of decimal digits, `none` when there is none
(the `NaN` outcome of `parseInt`). -/
def parseNatLead (s : Str) : Option Nat :=
  let ds := s.takeWhile Char.isDigit
  if ds = [] then none else some (digitsToNat ds)

/-- Model of JavaScript `Number.parseInt(s, 10)`: skip leading whitespace,
accept an optional sign, then read the longest digit prefix; `none` models
`NaN`. -/
def parseIntDec (s : Str) : Option Int :=
  match s.dropWhile Char.isWhitespace with
  | [] => none
  | a :: rest =>
    if a = '-' then (parseNatLead rest).map (fun n => -(n : Int))
    else if a = '+' then (parseNatLead rest).map (fun n => (n : Int))
    else (parseNatLead (a :: rest)).map (fun n => (n : Int))

/-- Fuel-driven digit expansion (structural so that concrete values reduce). -/
def natReprAux : Nat → Nat → Str
  | 0, _ => []
  | fuel + 1, n =>
      if n < 10 then [Nat.digitChar n]
      else natReprAux fuel (n / 10) ++ [Nat.digitChar (n % 10)]

/-- Decimal representation of a natural number, the model of JavaScript
`Number.prototype.toString` on the non-negative integers produced by
`Date.now()`. -/
def natRepr (n : Nat) : Str := natReprAux (n + 1) n

theorem natReprAux_fuel :
    ∀ n {f g : Nat}, n < f → n < g → natReprAux f n = natReprAux g n := by
  intro n
  induction n using Nat.strong_induction_on with
  | _ n ih =>
      intro f g hf hg
      match f, g with
      | f + 1, g + 1 =>
          simp only [natReprAux]
          by_cases h : n < 10
          · simp [h]
          · simp only [h, if_neg, not_false_iff]
            have hlt : n / 10 < n := Nat.div_lt_self (by omega) (by omega)
            rw [show natReprAux f (n / 10) = natReprAux g (n / 10) from
              ih (n / 10) hlt (by omega) (by omega)]

/-- The recurrence the JS `toString` algorithm satisfies. -/
theorem natRepr_unfold (n : Nat) :
    natRepr n = if n < 10 then [Nat.digitChar n]
      else natRepr (n / 10) ++ [Nat.digitChar (n % 10)] := by
  unfold natRepr
  conv_lhs => rw [natReprAux]
  by_cases h : n < 10
  · simp [h]
  · simp only [h, if_neg, not_false_iff]
    have hlt : n / 10 < n := Nat.div_lt_self (by omega) (by omega)
    rw [show natReprAux n (n / 10) = natReprAux (n / 10 + 1) (n / 10) from
      natReprAux_fuel (n / 10) (by omega) (by omega)]

/-- UTF-8 byte count of a string, the model of `Buffer.from(s).length`. -/
def byteLen (s : Str) : Nat := (s.map Char.utf8Size).sum

/-- The sixteen lowercase hex digits. -/
def hexChars : Str :=
  str ("0123456789abcdef")

/-- The ten decimal digits. -/
def decChars : Str :=
  str ("0123456789")

/-- The string consists of lowercase hex characters only. -/
def IsHex (s : Str) : Prop := ∀ c ∈ s, c ∈ hexChars

instance (s : Str) : Decidable (IsHex s) := by
  unfold IsHex; infer_instance

/-- The type of the external digest primitive
`hmacSign(data, secret) = crypto.createHmac('sha256', secret).update(data).digest('hex')`. -/
abbrev Hmac := Str → Str → Str

/-- What the gate's code relies on about `hmacSign`: the hex digest of
HMAC-SHA256 is 64 lowercase hex characters. -/
def HexOut (hmac : Hmac) : Prop :=
  ∀ d s : Str, (hmac d s).length = 64 ∧ IsHex (hmac d s)

/-- A stand-in instantiation of the digest parameter used by the concrete
witnesses: a fixed 64-character lowercase hex string.  (Only the output
format matters to the gate's control flow.) -/
def hmacModel : Hmac := fun _ _ =>
  str ("00112233445566778899aabbccddeeff00112233445566778899aabbccddeeff")

theorem isHex_hmacModelConst :
    IsHex (str ("00112233445566778899aabbccddeeff00112233445566778899aabbccddeeff")) := by
  decide

theorem hexOut_hmacModel : HexOut hmacModel := by
  intro d s
  exact ⟨rfl, isHex_hmacModelConst⟩

-- Basic facts about the primitive models ------------------------------------

theorem charIndexOf_append_of_not_mem {l : Str} {c : Char} (h : c ∉ l) (r : Str) :
    charIndexOf (l ++ c :: r) c = some l.length := by
  induction l with
  | nil => simp [charIndexOf]
  | cons a as ih =>
      simp only [List.mem_cons, not_or] at h
      simp [charIndexOf, Ne.symm h.1, ih h.2]

theorem hex_not_underscore : ∀ c ∈ hexChars, c ≠ '_' := by decide

theorem hex_not_dot : ∀ c ∈ hexChars, c ≠ '.' := by decide

theorem hex_utf8Size : ∀ c ∈ hexChars, c.utf8Size = 1 := by decide

theorem byteLen_of_hex {s : Str} (h : IsHex s) : byteLen s = s.length := by
  induction s with
  | nil => rfl
  | cons a as ih =>
      have ha : a ∈ hexChars := h a (by simp)
      have has : IsHex as := fun c hc => h c (by simp [hc])
      have := ih has
      simp [byteLen, hex_utf8Size a ha] at this ⊢
      omega

theorem isHex_take (s : Str) (n : Nat) (h : IsHex s) : IsHex (s.take n) :=
  fun c hc => h c ((List.take_sublist n s).subset hc)

theorem dec_char_spec :
    ∀ c ∈ decChars, c.isDigit = true ∧ c.isWhitespace = false ∧ c ≠ '-' ∧ c ≠ '+' ∧
      c ≠ '.' ∧ c ≠ '_' := by decide

theorem digitChar_mem_dec {d : Nat} (h : d < 10) : Nat.digitChar d ∈ decChars := by
  interval_cases d <;> decide

theorem natRepr_mem (n : Nat) : ∀ c ∈ natRepr n, c ∈ decChars := by
  induction n using Nat.strong_induction_on with
  | _ n ih =>
      intro c hc
      rw [natRepr_unfold] at hc
      by_cases h : n < 10
      · simp [h] at hc
        subst hc
        exact digitChar_mem_dec h
      · simp [h] at hc
        rcases hc with hc | hc
        · exact ih (n / 10) (Nat.div_lt_self (by omega) (by omega)) c hc
        · subst hc
          exact digitChar_mem_dec (Nat.mod_lt _ (by omega))

theorem natRepr_ne_nil (n : Nat) : natRepr n ≠ [] := by
  rw [natRepr_unfold]
  by_cases h : n < 10 <;> simp [h]

theorem takeWhile_all {p : Char → Bool} :
    ∀ l : Str, (∀ c ∈ l, p c = true) → l.takeWhile p = l
  | [], _ => rfl
  | a :: as, h => by
      simp only [List.takeWhile_cons, h a (by simp), if_true]
      simp only [List.cons.injEq, true_and]
      exact takeWhile_all as fun c hc => h c (by simp [hc])

theorem digitsToNat_natRepr (n : Nat) : digitsToNat (natRepr n) = n := by
  induction n using Nat.strong_induction_on with
  | _ n ih =>
      rw [natRepr_unfold]
      by_cases h : n < 10
      · simp only [h, if_pos]
        simp [digitsToNat]
        interval_cases n <;> decide
      · simp only [h, if_neg, not_false_iff]
        have hrec := ih (n / 10) (Nat.div_lt_self (by omega) (by omega))
        have hm : n % 10 < 10 := Nat.mod_lt _ (by omega)
        have hv : (Nat.digitChar (n % 10)).toNat - 48 = n % 10 := by
          revert hm; generalize n % 10 = m
          intro hm; interval_cases m <;> decide
        simp [digitsToNat, List.foldl_append] at hrec ⊢
        rw [hrec, hv]
        omega

theorem parseNatLead_natRepr (n : Nat) : parseNatLead (natRepr n) = some n := by
  unfold parseNatLead
  rw [takeWhile_all (natRepr n) (fun c hc => (dec_char_spec c (natRepr_mem n c hc)).1)]
  simp [natRepr_ne_nil n, digitsToNat_natRepr n]

theorem parseIntDec_natRepr (n : Nat) : parseIntDec (natRepr n) = some (n : Int) := by
  unfold parseIntDec
  cases hnr : natRepr n with
  | nil => exact absurd hnr (natRepr_ne_nil n)
  | cons a as =>
      have ha : a ∈ decChars := natRepr_mem n a (by rw [hnr]; simp)
      obtain ⟨_, hws, hminus, hplus, _, _⟩ := dec_char_spec a ha
      have hdrop : List.dropWhile Char.isWhitespace (a :: as) = a :: as := by
        simp [List.dropWhile_cons, hws]
      rw [← hnr] at hdrop ⊢
      rw [hnr] at hdrop
      rw [hnr]
      simp only [hdrop, hminus, hplus, if_neg, if_false]
      rw [← hnr, parseNatLead_natRepr n]
      simp

-- KeyProtocol (src/unnamed/part_022 lines 66-90; src/sdk/edge/index.js 59-95) --

/-- `KEY_PREFIX` from `sdk/constants.json` (spelled `keyPref` here). -/
def keyPref : Str := str ("ag_")

/-- `generateAgentKey(secret)`: `ag_<random>_<first 16 hex of HMAC(random)>`.
The 16 hex characters drawn from `crypto.randomUUID()` are an external
randomness source and enter as the `random` parameter. -/
def generateAgentKey (hmac : Hmac) (random secret : Str) : Str :=
  keyPref ++ (random ++ '_' :: (hmac random secret).take 16)

/-- `crypto.timingSafeEqual(Buffer.from(a), Buffer.from(b))`: throws a
`RangeError` (modelled `.error ()`) when the UTF-8 byte lengths differ,
otherwise compares the byte contents. -/
def nodeTimingSafeEqual (a b : Str) : Except Unit Bool :=
  if byteLen a = byteLen b then .ok (decide (a = b)) else .error ()

/-- `derivePaymentMemo(agentKey, secret)` of the backend-verify Node gate:
`gm_` + first 16 hex chars of `hmacSign(agentKey, secret)`. -/
def derivePaymentMemo (hmac : Hmac) (agentKey secret : Str) : Str :=
  str ("gm_") ++ (hmac agentKey secret).take 16

namespace Node

/-- `isValidAgentKey(key, secret)` of the Node gate: empty, over-64-char, or
badly shaped keys are rejected; otherwise the tail after the first `_` is
compared with `crypto.timingSafeEqual`, which throws when the operands have
different byte lengths. -/
def isValidAgentKey (hmac : Hmac) (key secret : Str) : Except Unit Bool :=
  if key = [] then .ok false
  else if 64 < key.length then .ok false
  else if jsStartsWith key keyPref = false then .ok false
  else
    let rest := key.drop keyPref.length
    match charIndexOf rest '_' with
    | none => .ok false
    | some i =>
        let random := rest.take i
        let sig := rest.drop (i + 1)
        let expected := hmac random secret
        nodeTimingSafeEqual sig (expected.take 16)

end Node

namespace Edge

/-- `timingSafeEqual(a, b)` of the edge SDK: fail-closed on a length
mismatch, then XOR-compare the HMAC digests of the operands under the fixed
key `timing-safe-cmp`; that digest is the abstract `mac` parameter. -/
def timingSafeEqual (mac : Str → Str) (a b : Str) : Bool :=
  decide (a.length = b.length) && decide (mac a = mac b)

/-- `isValidAgentKey(key, secret)` of the edge SDK: same shape checks as the
Node gate, but the final comparison uses the edge `timingSafeEqual`, which
returns `false` on a length mismatch instead of throwing. -/
def isValidAgentKey (hmac : Hmac) (mac : Str → Str) (key secret : Str) : Bool :=
  if key = [] then false
  else if 64 < key.length then false
  else if jsStartsWith key keyPref = false then false
  else
    let rest := key.drop keyPref.length
    match charIndexOf rest '_' with
    | none => false
    | some i =>
        timingSafeEqual mac (rest.drop (i + 1)) ((hmac (rest.take i) secret).take 16)

end Edge

-- CookieAndNonceProtocol (part_022 lines 116-137; edge/index.js 232-249) ----

/-- Cookie name `__agp_verified`. -/
def COOKIE_NAME : Str := str ("__agp_verified")

/-- `COOKIE_MAX_AGE` (seconds). -/
def COOKIE_MAX_AGE : Int := 86400

/-- Leading-whitespace trim, the `\s*` part of the cookie regex. -/
def trimLeadWs (s : Str) : Str := s.dropWhile Char.isWhitespace

/-- Split a cookie header at `;`. -/
def splitSemis : Str → List Str
  | [] => [[]]
  | c :: rest =>
      if c = ';' then [] :: splitSemis rest
      else
        match splitSemis rest with
        | [] => [[c]]
        | h :: t => (c :: h) :: t

/-- Model of `decodeURIComponent` restricted to values without `%`-escapes
(every value the gate itself mints — decimal digits, a dot, hex — is
escape-free, so the identity is exact there). -/
def decodeURIComp (s : Str) : Str := s

/-- `getCookie(req, name)`: the regex `(?:^|;\s*)name=([^;]*)` over the
`Cookie` header — the first `;`-fragment as-is, later fragments after their
leading whitespace, matched against `name=`, capturing up to the next `;`. -/
def getCookieVal : Option Str → Str → Option Str
  | none, _ => none
  | some h, name =>
      let comps :=
        match splitSemis h with
        | [] => []
        | first :: rest => first :: rest.map trimLeadWs
      (comps.find? (fun c => jsStartsWith c (name ++ ['=']))).map
        (fun c => decodeURIComp (c.drop (name.length + 1)))

namespace Node

/-- `isValidCookie(req, secret)` of the Node gate: extract `__agp_verified`,
split at the first `.`, `parseInt` the head, reject ages over
`COOKIE_MAX_AGE * 1000` ms (there is no lower bound on the age), then
constant-time-compare the tail with the recomputed HMAC after a string
length guard. -/
def isValidCookie (hmac : Hmac) (secret : Str) (now : Int)
    (cookieHeader : Option Str) : Except Unit Bool :=
  match getCookieVal cookieHeader COOKIE_NAME with
  | none => .ok false
  | some cookie =>
      if cookie = [] then .ok false
      else
        match charIndexOf cookie '.' with
        | none => .ok false
        | some i =>
            let timestamp := cookie.take i
            let signature := cookie.drop (i + 1)
            match parseIntDec timestamp with
            | none => .ok false
            | some ts =>
                if now - ts > COOKIE_MAX_AGE * 1000 then .ok false
                else
                  let expected := hmac timestamp secret
                  if signature.length ≠ expected.length then .ok false
                  else nodeTimingSafeEqual signature expected

end Node

namespace Edge

/-- `isValidCookie(request, secret)` of the edge SDK (no separate length
guard; the edge `timingSafeEqual` handles the mismatch internally). -/
def isValidCookie (hmac : Hmac) (mac : Str → Str) (secret : Str) (now : Int)
    (cookieHeader : Option Str) : Bool :=
  match getCookieVal cookieHeader COOKIE_NAME with
  | none => false
  | some cookie =>
      if cookie = [] then false
      else
        match charIndexOf cookie '.' with
        | none => false
        | some i =>
            let timestamp := cookie.take i
            let signature := cookie.drop (i + 1)
            match parseIntDec timestamp with
            | none => false
            | some ts =>
                if now - ts > COOKIE_MAX_AGE * 1000 then false
                else timingSafeEqual mac signature (hmac timestamp secret)

end Edge

-- SharedResources: RateLimiter (part_022 41-64; edge 44-57) -----------------

/-- An entry of the rate-limiter `hits` map: `{ start, count }`. -/
structure RLEntry where
  start : Int
  count : Nat
deriving DecidableEq, Repr

/-- The `hits` map in JS `Map` insertion order. -/
abbrev RLMap := List (Str × RLEntry)

def rlLookup : RLMap → Str → Option RLEntry
  | [], _ => none
  | (k, e) :: rest, key => if k = key then some e else rlLookup rest key

/-- JS `Map.prototype.set`: replace in place, or append a fresh key. -/
def rlStore : RLMap → Str → RLEntry → RLMap
  | [], key, e => [(key, e)]
  | (k, e0) :: rest, key, e =>
      if k = key then (key, e) :: rest else (k, e0) :: rlStore rest key e

def RATE_LIMIT_WINDOW : Int := 60 * 1000

def RATE_LIMIT_MAX : Nat := 20

/-- `RateLimiter.check` (Node) = `rateLimitCheck` (edge): a fixed window of
`windowMs` ms starts at the first hit for the key; up to `maxN` permits per
window; a hit after the window restarts it. -/
def rlCheck (windowMs : Int) (maxN : Nat) (now : Int) (hits : RLMap) (key : Str) :
    Bool × RLMap :=
  match rlLookup hits key with
  | none => (true, rlStore hits key ⟨now, 1⟩)
  | some e =>
      if now - e.start > windowMs then (true, rlStore hits key ⟨now, 1⟩)
      else
        let c := e.count + 1
        (decide (c ≤ maxN), rlStore hits key ⟨e.start, c⟩)

-- SharedResources: PaymentCache (part_022 7-29; edge 17-35) -----------------

/-- A cache slot: the JS `Map` value `{ value, ts }` keyed by `key`. -/
structure CEntry (α : Type) where
  key : Str
  value : α
  ts : Int
deriving DecidableEq, Repr

/-- The cache `Map` in JS insertion order (head = oldest position). -/
abbrev Cache (α : Type) := List (CEntry α)

def PAYMENT_CACHE_TTL : Int := 10 * 60 * 1000

def PAYMENT_CACHE_MAX : Nat := 1000

/-- `PaymentCache.get`: lazy TTL expiry — an entry older than `ttl` is
deleted and reported absent. -/
def cacheGet {α : Type} (ttl : Int) (now : Int) :
    Cache α → Str → Option α × Cache α
  | [], _ => (none, [])
  | e :: rest, k =>
      if e.key = k then
        if now - e.ts > ttl then (none, rest) else (some e.value, e :: rest)
      else
        let (r, rest') := cacheGet ttl now rest k
        (r, e :: rest')

/-- JS `Map.prototype.set` on the cache: replace in place (keeping the slot's
position) or append a fresh key at the end. -/
def cacheMapSet {α : Type} : Cache α → Str → α → Int → Cache α
  | [], k, v, now => [⟨k, v, now⟩]
  | e :: rest, k, v, now =>
      if e.key = k then ⟨k, v, now⟩ :: rest else e :: cacheMapSet rest k v now

/-- `PaymentCache.set`: when at capacity first delete
`cache.keys().next().value` — the entry at the head of the insertion
order — then `Map.set`. -/
def cacheSet {α : Type} (maxSize : Nat) (now : Int) (c : Cache α) (k : Str)
    (v : α) : Cache α :=
  cacheMapSet (if maxSize ≤ c.length then c.drop 1 else c) k v now

-- Request classification helpers --------------------------------------------

/-- JS truthiness of an optional string: `undefined` and `''` are falsy. -/
def jsTruthy : Option Str → Bool
  | none => false
  | some s => decide (s ≠ [])

/-- `a || d` on an optional string with a string default. -/
def jsOr (a : Option Str) (d : Str) : Str :=
  match a with
  | none => d
  | some s => if s = [] then d else s

/-- `a || b || d`. -/
def jsOr2 (a b : Option Str) (d : Str) : Str := jsOr a (jsOr b d)

/-- `isPublicPath(pathname[, allowlist])`: `/robots.txt`, `/.well-known/*`,
and (edge only) exact allowlist entries pass; the Node gate is the
`allowlist = []` instance. -/
def isPublicPath (pathname : Str) (allowlist : List Str) : Bool :=
  if pathname = str ("/robots.txt") then true
  else if jsStartsWith pathname (str ("/.well-known/")) then true
  else decide (pathname ∈ allowlist)

/-- `isBrowser(req)`: presence of `Sec-Fetch-Mode` or `Sec-Fetch-Dest`. -/
def isBrowser (secFetchMode secFetchDest : Option Str) : Bool :=
  jsTruthy secFetchMode || jsTruthy secFetchDest

-- JSON response bodies (the object literals passed to `json`/`jsonResponse`) --

/-- The `payment` object of a 402 body. -/
structure Payment where
  chain : Str
  network : Str
  token : Str
  amount : Str
  wallet_address : Str
  memo : Str
  instructions : Option Str
deriving DecidableEq, Repr

/-- A gate JSON body: `error`, `message`, and the optional `your_key`,
`payment`, `details` members. -/
structure Body where
  error : Str
  message : Str
  your_key : Option Str
  payment : Option Payment
  details : Option Str
deriving DecidableEq, Repr

/-- `String(MIN_PAYMENT)` for `MIN_PAYMENT = 0.01`. -/
def MIN_PAYMENT_STR : Str := str ("0.01")

def bodyRateLimited : Body :=
  { error := str ("rate_limited"),
    message := str ("Too many verification attempts. Please wait and try again."),
    your_key := none, payment := none, details := none }

def bodyChallengeFailed : Body :=
  { error := str ("forbidden"),
    message := str ("Challenge verification failed."),
    your_key := none, payment := none, details := none }

def bodyChallengeExpired : Body :=
  { error := str ("forbidden"),
    message := str ("Challenge expired. Reload the page."),
    your_key := none, payment := none, details := none }

def bodyInvalidChallenge : Body :=
  { error := str ("forbidden"),
    message := str ("Invalid challenge."),
    your_key := none, payment := none, details := none }

def bodyForbiddenKey : Body :=
  { error := str ("forbidden"),
    message := str ("Invalid API key. Keys must be issued by this server."),
    your_key := none, payment := none,
    details := some (str ("GET /.well-known/agent-access.json for access instructions.")) }

def bodyNotConfigured : Body :=
  { error := str ("server_error"),
    message := str ("Payment verification not configured."),
    your_key := none, payment := none, details := none }

def bodyUnavailable : Body :=
  { error := str ("server_error"),
    message := str ("Payment verification unavailable."),
    your_key := none, payment := none, details := none }

def bodyInsecureDefault : Body :=
  { error := str ("server_error"),
    message := str ("Server misconfiguration: insecure default secret."),
    your_key := none, payment := none, details := none }

def bodyInvalidWallet : Body :=
  { error := str ("server_error"),
    message := str ("Server misconfiguration: invalid wallet address."),
    your_key := none, payment := none, details := none }

/-- First-issuance 402 message of the backend-verify Node gate. -/
def msg402FirstNode : Str :=
  str ("Access requires a paid API key. A key has been generated for you below. Send a USDC payment with the provided memo to activate it, then retry your request with the X-Agent-Key header.")

/-- First-issuance 402 message of the edge gate (memo is the key itself). -/
def msg402FirstEdge : Str :=
  str ("Access requires a paid API key. A key has been generated for you below. Send a USDC payment on Solana with this key as the memo to activate it, then retry your request with the X-Agent-Key header.")

/-- Unpaid-retry 402 message of the backend-verify Node gate. -/
def msg402RetryNode : Str :=
  str ("Key is valid but payment has not been verified yet. Please send the USDC payment and allow a few moments for confirmation.")

/-- Unpaid-retry 402 message of the edge gate. -/
def msg402RetryEdge : Str :=
  str ("Key is valid but payment has not been verified on-chain yet. Please send the USDC payment and allow a few moments for confirmation.")

/-- The interpolated `instructions` template string. -/
def instructionsText (amount networkLabel wallet memo key : Str) : Str :=
  str ("Send ") ++ amount ++ str (" USDC on Solana ") ++ networkLabel ++
  str (" to ") ++ wallet ++ str (" with memo \"") ++ memo ++
  str ("\". Then include the header X-Agent-Key: ") ++ key ++
  str (" on all subsequent requests.")

-- VerifyServiceClient (part_022 92-114) --------------------------------------

/-- `GET /merchants/me` body. -/
structure MerchantConfig where
  walletAddress : Str
  network : Str
deriving DecidableEq, Repr

/-- Parsed verify-service body: the `paid` member when it is a boolean. -/
structure VerifyBody where
  paid : Option Bool
deriving DecidableEq, Repr

instance {ε α : Type} [DecidableEq ε] [DecidableEq α] : DecidableEq (Except ε α)
  | .error e, .error f =>
      if h : e = f then .isTrue (by rw [h]) else .isFalse (by simp [h])
  | .error _, .ok _ => .isFalse (by simp)
  | .ok _, .error _ => .isFalse (by simp)
  | .ok a, .ok b =>
      if h : a = b then .isTrue (by rw [h]) else .isFalse (by simp [h])

/-- The verify backend's HTTP response as seen by `fetch`: `ok` mirrors
`resp.ok` (2xx), `jsonBody` is the outcome of `resp.json()` — `.error ()`
models a body that is not well-formed JSON, on which `resp.json()` rejects. -/
structure HttpResp where
  ok : Bool
  jsonBody : Except Unit VerifyBody
deriving DecidableEq, Repr

/-- `verifyPaymentViaBackend(memo, verifyUrl, apiKey)`: a non-2xx response is
reported unpaid (with an error log); on a 2xx response `resp.json()` is
awaited with no try/catch, so a malformed body propagates as a rejection;
otherwise the result is `data.paid === true`. -/
def verifyPaymentViaBackend (resp : HttpResp) : Except Unit Bool :=
  if resp.ok = false then .ok false
  else
    match resp.jsonBody with
    | .error e => .error e
    | .ok data => .ok (decide (data.paid = some true))

-- The backend-verify Node gate (part_022, first document, lines 189-327) -----

/-- The parts of an Express request the middleware reads. -/
structure NodeReq where
  path : Str
  method : Str
  ip : Option Str
  xForwardedFor : Option Str
  agentKey : Option Str
  secFetchMode : Option Str
  secFetchDest : Option Str
  cookieHeader : Option Str
  bodyNonce : Option Str
  bodyReturnTo : Option Str
  bodyFp : Option Str
  queryNonce : Option Str
  queryReturnTo : Option Str
  queryFp : Option Str
  originalUrl : Str
deriving DecidableEq, Repr

/-- `agentPaymentsGate` configuration (backend-verify variant). -/
structure NodeCfg where
  challengeSecret : Option Str
  verifyUrl : Option Str
  apiKey : Option Str
deriving DecidableEq, Repr

/-- Per-request external facts: the clock, the randomness drawn by
`generateAgentKey`, and the outcomes of the (at most one) verify call and
of `fetchMerchantConfig` (which throws on a non-2xx status). -/
structure NodeEnv where
  now : Int
  random : Str
  verifyResp : HttpResp
  merchantFetch : Except Unit MerchantConfig
deriving DecidableEq, Repr

/-- The gate instance's shared mutable state. -/
structure NodeState where
  cache : Cache Bool
  hits : RLMap
  merchantConfig : Option MerchantConfig
deriving DecidableEq, Repr

/-- A response of the Node middleware: `next()` passthrough, a JSON body, the
302 redirect carrying the freshly minted cookie value, or the challenge HTML
page (carrying its embedded safe path and nonce). -/
inductive NodeResp where
  | next
  | json (status : Nat) (body : Body)
  | redirect (status : Nat) (location : Str) (cookieValue : Str)
  | challenge (safePath : Str) (nonce : Str)
deriving DecidableEq, Repr

/-- Whitespace trim on both ends, JS `String.prototype.trim`. -/
def trimWs (s : Str) : Str :=
  ((s.dropWhile Char.isWhitespace).reverse.dropWhile Char.isWhitespace).reverse

/-- `req.ip || req.headers['x-forwarded-for']?.split(',')[0]?.trim() || 'unknown'`. -/
def clientIpOf (req : NodeReq) : Str :=
  jsOr req.ip
    (jsOr (req.xForwardedFor.map fun h => trimWs (h.takeWhile fun c => decide (c ≠ ',')))
      (str ("unknown")))

/-- The memoised `getMerchantConfig` closure: a cached value is returned;
without `verifyUrl`/`apiKey` the result is `null`; otherwise
`fetchMerchantConfig` runs and may throw. -/
def getMerchantConfig (cfg : NodeCfg) (env : NodeEnv) (st : NodeState) :
    Except Unit (Option MerchantConfig) × NodeState :=
  match st.merchantConfig with
  | some mc => (.ok (some mc), st)
  | none =>
      if jsTruthy cfg.verifyUrl = false ∨ jsTruthy cfg.apiKey = false then
        (.ok none, st)
      else
        match env.merchantFetch with
        | .error e => (.error e, st)
        | .ok mc => (.ok (some mc), { st with merchantConfig := some mc })

/-- `agentPaymentsGateMiddleware` of the backend-verify Node gate.  The
result is `.error ()` exactly when an exception escapes the async handler. -/
def nodeGate (hmac : Hmac) (cfg : NodeCfg) (env : NodeEnv) (st : NodeState)
    (req : NodeReq) : Except Unit NodeResp × NodeState :=
  let secret := jsOr cfg.challengeSecret (str ("default-secret-change-me"))
  if isPublicPath req.path [] then (.ok .next, st)
  else if (req.path = str ("/__challenge/verify") ∧ req.method = str ("POST")) then
    let clientIp := clientIpOf req
    let rl := rlCheck RATE_LIMIT_WINDOW RATE_LIMIT_MAX env.now st.hits clientIp
    let st1 : NodeState := { st with hits := rl.2 }
    if rl.1 = false then (.ok (.json 429 bodyRateLimited), st1)
    else
      let nonce := (jsOr2 req.bodyNonce req.queryNonce []).take 128
      let returnTo := (jsOr2 req.bodyReturnTo req.queryReturnTo (str ("/"))).take 2048
      let fp := (jsOr2 req.bodyFp req.queryFp []).take 128
      match charIndexOf nonce '.' with
      | none => (.ok (.json 403 bodyChallengeFailed), st1)
      | some dotIndex =>
          if (fp = [] ∨ fp.length < 10) then (.ok (.json 403 bodyChallengeFailed), st1)
          else
            let nonceTs := nonce.take dotIndex
            let nonceSig := nonce.drop (dotIndex + 1)
            match parseIntDec nonceTs with
            | none => (.ok (.json 403 bodyChallengeExpired), st1)
            | some ts =>
                if env.now - ts > 300000 then (.ok (.json 403 bodyChallengeExpired), st1)
                else
                  let expectedSig := hmac (str ("nonce:") ++ nonceTs) secret
                  if nonceSig.length ≠ expectedSig.length then
                    (.ok (.json 403 bodyInvalidChallenge), st1)
                  else
                    match nodeTimingSafeEqual nonceSig expectedSig with
                    | .error e => (.error e, st1)
                    | .ok ok =>
                        if ok = false then (.ok (.json 403 bodyInvalidChallenge), st1)
                        else
                          let nowStr := natRepr env.now.toNat
                          let cookieSig := hmac nowStr secret
                          let safePath :=
                            if jsStartsWith returnTo (str ("/")) then returnTo else str ("/")
                          (.ok (.redirect 302 safePath (nowStr ++ '.' :: cookieSig)), st1)
  else if isBrowser req.secFetchMode req.secFetchDest = false then
    if jsTruthy req.agentKey = false then
      match getMerchantConfig cfg env st with
      | (.error e, st1) => (.error e, st1)
      | (.ok none, st1) => (.ok (.json 500 bodyNotConfigured), st1)
      | (.ok (some mc), st1) =>
          let newKey := generateAgentKey hmac env.random secret
          let paymentMemo := derivePaymentMemo hmac newKey secret
          let isDev := mc.network = str ("devnet")
          let networkLabel := if isDev then str ("devnet") else str ("mainnet")
          (.ok (.json 402
            { error := str ("payment_required"),
              message := msg402FirstNode,
              your_key := some newKey,
              payment := some
                { chain := str ("solana"),
                  network := if isDev then str ("devnet") else str ("mainnet-beta"),
                  token := str ("USDC"),
                  amount := MIN_PAYMENT_STR,
                  wallet_address := mc.walletAddress,
                  memo := paymentMemo,
                  instructions := some (instructionsText MIN_PAYMENT_STR networkLabel
                    mc.walletAddress paymentMemo newKey) },
              details := none }), st1)
    else
      let agentKey := jsOr req.agentKey []
      match Node.isValidAgentKey hmac agentKey secret with
      | .error e => (.error e, st)
      | .ok false => (.ok (.json 403 bodyForbiddenKey), st)
      | .ok true =>
          let g := cacheGet PAYMENT_CACHE_TTL env.now st.cache agentKey
          let st1 : NodeState := { st with cache := g.2 }
          if g.1 = some true then (.ok .next, st1)
          else if jsTruthy cfg.verifyUrl = false ∨ jsTruthy cfg.apiKey = false then
            (.ok (.json 500 bodyNotConfigured), st1)
          else
            let paymentMemo := derivePaymentMemo hmac agentKey secret
            match verifyPaymentViaBackend env.verifyResp with
            | .error e => (.error e, st1)
            | .ok paid =>
                let st2 : NodeState :=
                  if paid then
                    { st1 with cache := cacheSet PAYMENT_CACHE_MAX env.now st1.cache agentKey true }
                  else st1
                if paid = false then
                  match getMerchantConfig cfg env st2 with
                  | (.error e, st3) => (.error e, st3)
                  | (.ok none, st3) => (.ok (.json 500 bodyNotConfigured), st3)
                  | (.ok (some mc), st3) =>
                      (.ok (.json 402
                        { error := str ("payment_required"),
                          message := msg402RetryNode,
                          your_key := some agentKey,
                          payment := some
                            { chain := str ("solana"),
                              network := if mc.network = str ("devnet") then str ("devnet")
                                else str ("mainnet-beta"),
                              token := str ("USDC"),
                              amount := MIN_PAYMENT_STR,
                              wallet_address := mc.walletAddress,
                              memo := paymentMemo,
                              instructions := none },
                          details := none }), st3)
                else (.ok .next, st2)
  else
    match Node.isValidCookie hmac secret env.now req.cookieHeader with
    | .error e => (.error e, st)
    | .ok true => (.ok .next, st)
    | .ok false =>
        let nonceTs := natRepr env.now.toNat
        let nonceSig := hmac (str ("nonce:") ++ nonceTs) secret
        let safePath :=
          if jsStartsWith req.originalUrl (str ("/")) then req.originalUrl else str ("/")
        (.ok (.challenge safePath (nonceTs ++ '.' :: nonceSig)), st)

-- The edge gate (src/sdk/edge/index.js, createEdgeGate / edgeGate) -----------

/-- A base58 character, `[1-9A-HJ-NP-Za-km-z]`. -/
def isB58Char (c : Char) : Bool :=
  decide (('1' ≤ c ∧ c ≤ '9') ∨ ('A' ≤ c ∧ c ≤ 'H') ∨ ('J' ≤ c ∧ c ≤ 'N') ∨
    ('P' ≤ c ∧ c ≤ 'Z') ∨ ('a' ≤ c ∧ c ≤ 'k') ∨ ('m' ≤ c ∧ c ≤ 'z'))

/-- `BASE58_RE.test`, the anchored regex `^[1-9A-HJ-NP-Za-km-z]{32,44}$`. -/
def base58Test (s : Str) : Bool :=
  decide (32 ≤ s.length) && decide (s.length ≤ 44) && s.all isB58Char

/-- The environment bindings the edge gate reads.  `SOLANA_RPC_URL` and
`USDC_MINT` only select the endpoints handed to the external on-chain
scanner (`verifyPaymentOnChain`), whose outcome is the `chainPaid` oracle. -/
structure EdgeEnvVars where
  CHALLENGE_SECRET : Option Str
  HOME_WALLET_ADDRESS : Option Str
  DEBUG : Option Str
  SOLANA_RPC_URL : Option Str
  USDC_MINT : Option Str
deriving DecidableEq, Repr

/-- The parts of a Web `Request` the edge gate reads. -/
structure EdgeReq where
  pathname : Str
  search : Str
  method : Str
  agentKey : Option Str
  secFetchMode : Option Str
  secFetchDest : Option Str
  cookieHeader : Option Str
  userAgent : Option Str
  formNonce : Option Str
  formReturnTo : Option Str
  formFp : Option Str
deriving DecidableEq, Repr

/-- Per-request external facts for the edge gate: clock, drawn randomness,
the `getClientIp` callback's answer, and the outcome of the on-chain scan
(`verifyPaymentOnChain` catches its own errors and returns a boolean). -/
structure EdgeOracles where
  now : Int
  random : Str
  clientIp : Str
  chainPaid : Bool
deriving DecidableEq, Repr

/-- The edge module-level shared state (`paymentCache`, `rateLimitHits`). -/
structure EdgeState where
  paymentCache : Cache Bool
  rateLimitHits : RLMap
deriving DecidableEq, Repr

/-- An edge gate response: `fetchUpstream` passthrough, a JSON body, the 302
redirect with its `Set-Cookie` value, or the challenge HTML page. -/
inductive EdgeResp where
  | upstream
  | json (status : Nat) (body : Body)
  | redirect302 (location : Str) (cookieValue : Str)
  | challenge (safePath : Str) (nonce : Str)
deriving DecidableEq, Repr

/-- `edgeGate(request, env, context)` as returned by `createEdgeGate`;
`allowlist` and `minPayment` are the `createEdgeGate` options. -/
def edgeGate (hmac : Hmac) (mac : Str → Str) (allowlist : List Str)
    (minPayment : Str) (env : EdgeEnvVars) (orc : EdgeOracles) (st : EdgeState)
    (req : EdgeReq) : EdgeResp × EdgeState :=
  let secret := jsOr env.CHALLENGE_SECRET (str ("default-secret-change-me"))
  let walletAddress := jsOr env.HOME_WALLET_ADDRESS []
  let debug := decide (env.DEBUG ≠ some (str ("false")))
  if (secret = str ("default-secret-change-me") ∧ debug = false) then
    (.json 500 bodyInsecureDefault, st)
  else if (walletAddress ≠ [] ∧ base58Test walletAddress = false) then
    (.json 500 bodyInvalidWallet, st)
  else if isPublicPath req.pathname allowlist then (.upstream, st)
  else if (req.pathname = str ("/__challenge/verify") ∧ req.method = str ("POST")) then
    let rl := rlCheck RATE_LIMIT_WINDOW RATE_LIMIT_MAX orc.now st.rateLimitHits orc.clientIp
    let st1 : EdgeState := { st with rateLimitHits := rl.2 }
    if rl.1 = false then (.json 429 bodyRateLimited, st1)
    else
      let nonce := (jsOr req.formNonce []).take 128
      let returnTo := (jsOr req.formReturnTo (str ("/"))).take 2048
      let fp := (jsOr req.formFp []).take 128
      match charIndexOf nonce '.' with
      | none => (.json 403 bodyChallengeFailed, st1)
      | some dotIndex =>
          if (fp = [] ∨ fp.length < 10) then (.json 403 bodyChallengeFailed, st1)
          else
            let nonceTs := nonce.take dotIndex
            let nonceSig := nonce.drop (dotIndex + 1)
            match parseIntDec nonceTs with
            | none => (.json 403 bodyChallengeExpired, st1)
            | some ts =>
                if orc.now - ts > 300000 then (.json 403 bodyChallengeExpired, st1)
                else
                  let expectedSig := hmac (str ("nonce:") ++ nonceTs) secret
                  if Edge.timingSafeEqual mac nonceSig expectedSig = false then
                    (.json 403 bodyInvalidChallenge, st1)
                  else
                    let nowStr := natRepr orc.now.toNat
                    let cookieSig := hmac nowStr secret
                    let safePath :=
                      if jsStartsWith returnTo (str ("/")) then returnTo else str ("/")
                    (.redirect302 safePath (nowStr ++ '.' :: cookieSig), st1)
  else if isBrowser req.secFetchMode req.secFetchDest = false then
    if jsTruthy req.agentKey = false then
      let newKey := generateAgentKey hmac orc.random secret
      (.json 402
        { error := str ("payment_required"),
          message := msg402FirstEdge,
          your_key := some newKey,
          payment := some
            { chain := str ("solana"),
              network := if debug then str ("devnet") else str ("mainnet-beta"),
              token := str ("USDC"),
              amount := minPayment,
              wallet_address := walletAddress,
              memo := newKey,
              instructions := some (instructionsText minPayment
                (if debug then str ("devnet") else str ("mainnet"))
                walletAddress newKey newKey) },
          details := none }, st)
    else
      let agentKey := jsOr req.agentKey []
      if Edge.isValidAgentKey hmac mac agentKey secret = false then
        (.json 403 bodyForbiddenKey, st)
      else if walletAddress = [] then (.json 500 bodyUnavailable, st)
      else
        let g := cacheGet PAYMENT_CACHE_TTL orc.now st.paymentCache agentKey
        let st1 : EdgeState := { st with paymentCache := g.2 }
        if g.1 = some true then (.upstream, st1)
        else
          let paid := orc.chainPaid
          let st2 : EdgeState :=
            if paid then
              { st1 with paymentCache :=
                  cacheSet PAYMENT_CACHE_MAX orc.now st1.paymentCache agentKey true }
            else st1
          if paid = false then
            (.json 402
              { error := str ("payment_required"),
                message := msg402RetryEdge,
                your_key := some agentKey,
                payment := some
                  { chain := str ("solana"),
                    network := if debug then str ("devnet") else str ("mainnet-beta"),
                    token := str ("USDC"),
                    amount := minPayment,
                    wallet_address := walletAddress,
                    memo := agentKey,
                    instructions := none },
                details := none }, st2)
          else (.upstream, st2)
  else if Edge.isValidCookie hmac mac secret orc.now req.cookieHeader then
    (.upstream, st)
  else
    let nonceTs := natRepr orc.now.toNat
    let nonceSig := hmac (str ("nonce:") ++ nonceTs) secret
    let target := req.pathname ++ req.search
    let safePath := if jsStartsWith target (str ("/")) then target else str ("/")
    (.challenge safePath (nonceTs ++ '.' :: nonceSig), st)

-- Minted tokens (the expressions the gate itself produces) -------------------

/-- The cookie value `${now}.${hmacSign(now, secret)}` minted by the
challenge-verify handler. -/
def mintedCookie (hmac : Hmac) (secret : Str) (t : Nat) : Str :=
  natRepr t ++ '.' :: hmac (natRepr t) secret

/-- The nonce `${ts}.${hmacSign('nonce:' + ts, secret)}` embedded in the
challenge page. -/
def mintedNonce (hmac : Hmac) (secret : Str) (t : Nat) : Str :=
  natRepr t ++ '.' :: hmac (str ("nonce:") ++ natRepr t) secret

-- Helper lemmas on the cookie/nonce plumbing ---------------------------------

theorem semi_not_dec : ';' ∉ decChars := by decide

theorem dot_not_dec : '.' ∉ decChars := by decide

theorem semi_not_hex : ';' ∉ hexChars := by decide

theorem not_mem_natRepr {c : Char} (hc : c ∉ decChars) (t : Nat) : c ∉ natRepr t :=
  fun h => hc (natRepr_mem t c h)

theorem not_mem_of_isHex {c : Char} {s : Str} (hc : c ∉ hexChars) (hs : IsHex s) :
    c ∉ s :=
  fun h => hc (hs c h)

theorem splitSemis_no_semi {l : Str} (h : ';' ∉ l) : splitSemis l = [l] := by
  induction l with
  | nil => rfl
  | cons c rest ih =>
      simp only [List.mem_cons, not_or] at h
      unfold splitSemis
      rw [if_neg (Ne.symm h.1), ih h.2]

theorem jsStartsWith_append (p r : Str) : jsStartsWith (p ++ r) p = true := by
  rw [jsStartsWith, List.isPrefixOf_iff_prefix]
  exact List.prefix_append p r

theorem jsStartsWith_elim {s p : Str} (h : jsStartsWith s p = true) :
    ∃ t, s = p ++ t := by
  rw [jsStartsWith, List.isPrefixOf_iff_prefix] at h
  obtain ⟨t, ht⟩ := h
  exact ⟨t, ht.symm⟩

theorem append_cons_assoc (l : Str) (c : Char) (r : Str) :
    l ++ c :: r = (l ++ [c]) ++ r := by simp

theorem drop_len_succ (l : Str) (c : Char) (r : Str) :
    (l ++ c :: r).drop (l.length + 1) = r := by
  rw [append_cons_assoc]
  have : l.length + 1 = (l ++ [c]).length := by simp
  rw [this, List.drop_left]

theorem take_len (l : Str) (c : Char) (r : Str) :
    (l ++ c :: r).take l.length = l :=
  List.take_left l (c :: r)

theorem getCookieVal_single (name v : Str) (h : ';' ∉ name ++ '=' :: v) :
    getCookieVal (some (name ++ '=' :: v)) name = some v := by
  rw [getCookieVal, splitSemis_no_semi h]
  have hpre : jsStartsWith (name ++ '=' :: v) (name ++ ['=']) = true := by
    rw [append_cons_assoc]
    exact jsStartsWith_append _ _
  simp only [List.map_nil, List.find?_cons, hpre]
  simp [decodeURIComp, drop_len_succ]

theorem semi_not_cookieName : ';' ∉ COOKIE_NAME := by decide

theorem mintedCookie_ne_nil (hmac : Hmac) (secret : Str) (t : Nat) :
    mintedCookie hmac secret t ≠ [] := by
  simp [mintedCookie]

theorem semi_not_mintedHeader (hmac : Hmac) (secret : Str) (t : Nat)
    (hhx : IsHex (hmac (natRepr t) secret)) :
    ';' ∉ COOKIE_NAME ++ '=' :: mintedCookie hmac secret t := by
  intro hm
  rcases List.mem_append.mp hm with h1 | h2
  · exact semi_not_cookieName h1
  · rcases List.mem_cons.mp h2 with h3 | h4
    · exact absurd h3 (by decide)
    · rw [mintedCookie] at h4
      rcases List.mem_append.mp h4 with h5 | h6
      · exact not_mem_natRepr semi_not_dec t h5
      · rcases List.mem_cons.mp h6 with h7 | h8
        · exact absurd h7 (by decide)
        · exact not_mem_of_isHex semi_not_hex hhx h8

/-- The Node cookie validator on a cookie the gate itself minted at time `t`:
the outcome is exactly the age test `now − t ≤ 86 400 000` — there is no
lower bound, so a cookie stamped at the current instant or in the future
validates. -/
theorem isValidCookie_minted (hmac : Hmac) (hhex : HexOut hmac) (secret : Str)
    (now : Int) (t : Nat) :
    Node.isValidCookie hmac secret now
        (some (COOKIE_NAME ++ '=' :: mintedCookie hmac secret t))
      = .ok (decide (now - (t : Int) ≤ 86400000)) := by
  obtain ⟨hlen, hhx⟩ := hhex (natRepr t) secret
  unfold Node.isValidCookie
  rw [getCookieVal_single _ _ (semi_not_mintedHeader hmac secret t hhx)]
  simp only [mintedCookie_ne_nil, if_neg, mintedCookie,
    charIndexOf_append_of_not_mem (not_mem_natRepr dot_not_dec t),
    take_len, drop_len_succ, parseIntDec_natRepr]
  by_cases hc : now - (t : Int) > COOKIE_MAX_AGE * 1000
  · rw [if_neg (by simp), if_pos hc]
    have hd : decide (now - (t : Int) ≤ 86400000) = false := by
      simp only [COOKIE_MAX_AGE] at hc
      simp
      omega
    rw [hd]
  · rw [if_neg (by simp), if_neg hc, if_neg (by simp)]
    rw [nodeTimingSafeEqual, if_pos rfl]
    have hd : decide (now - (t : Int) ≤ 86400000) = true := by
      simp only [COOKIE_MAX_AGE] at hc
      simp
      omega
    rw [hd]
    simp

/-- C5 (counterexample): a cookie stamped at the very instant of validation
(`now − T = 0`) with a matching signature is accepted by `isValidCookie`,
although the claim requires `0 < now − T` and predicts `false` here. -/
theorem C5_counterexample :
    Node.isValidCookie hmacModel (str ("s3cr3t")) 5
        (some (COOKIE_NAME ++ '=' :: mintedCookie hmacModel (str ("s3cr3t")) 5))
      = .ok true
    ∧ ¬ ((0 : Int) < 5 - 5) :=
  ⟨by decide, by decide⟩

/-- C5 (amended): `isValidCookie` accepts a gate-minted cookie exactly when
`now − T ≤ 86_400_000` ms and the signature matches; the age has no lower
bound, so a cookie whose timestamp equals the current time (or lies in the
future) validates `true`. -/
theorem C5_cookie_age_only_upper (hmac : Hmac) (hhex : HexOut hmac)
    (secret : Str) (now : Int) (t : Nat) :
    Node.isValidCookie hmac secret now
        (some (COOKIE_NAME ++ '=' :: mintedCookie hmac secret t))
      = .ok (decide (now - (t : Int) ≤ 86400000)) :=
  isValidCookie_minted hmac hhex secret now t

theorem C5_witness :
    Node.isValidCookie hmacModel (str ("k")) 86400001
        (some (COOKIE_NAME ++ '=' :: mintedCookie hmacModel (str ("k")) 0))
      = .ok false :=
  (C5_cookie_age_only_upper hmacModel hexOut_hmacModel (str ("k")) 86400001 0).trans
    (by decide)

-- Mint-then-validate for agent keys ------------------------------------------

theorem jsOr_some_of_ne {s : Str} (h : s ≠ []) (d : Str) : jsOr (some s) d = s := by
  simp [jsOr, h]

theorem jsOr2_some_of_ne {s : Str} (h : s ≠ []) (b : Option Str) (d : Str) :
    jsOr2 (some s) b d = s :=
  jsOr_some_of_ne h _

/-- A key freshly minted by `generateAgentKey` passes `isValidAgentKey` under
the same secret: the random part (16 hex chars from `randomUUID` in the
gate, here anything underscore-free of length ≤ 44) round-trips. -/
theorem isValidAgentKey_generated (hmac : Hmac) (hhex : HexOut hmac)
    (random secret : Str) (hlen : random.length ≤ 44)
    (hund : '_' ∉ random) :
    Node.isValidAgentKey hmac (generateAgentKey hmac random secret) secret
      = .ok true := by
  obtain ⟨hl, hx⟩ := hhex random secret
  have hlen16 : ((hmac random secret).take 16).length = 16 := by
    rw [List.length_take, hl]
    decide
  have hpl : keyPref.length = 3 := by decide
  unfold Node.isValidAgentKey generateAgentKey
  rw [if_neg (by simp [keyPref])]
  have hklen : (keyPref ++ (random ++ '_' :: (hmac random secret).take 16)).length
      = random.length + 20 := by
    simp only [List.length_append, List.length_cons, hpl, hlen16]
    omega
  rw [if_neg (by rw [hklen]; omega)]
  rw [if_neg (by
    rw [jsStartsWith_append keyPref (random ++ '_' :: (hmac random secret).take 16)]
    simp)]
  rw [List.drop_left keyPref (random ++ '_' :: (hmac random secret).take 16)]
  simp only [charIndexOf_append_of_not_mem hund, take_len, drop_len_succ]
  rw [nodeTimingSafeEqual, if_pos rfl]
  simp

-- The challenge-verify handler on a fresh, well-formed submission -----------

theorem mintedNonce_ne_nil (hmac : Hmac) (secret : Str) (t : Nat) :
    mintedNonce hmac secret t ≠ [] := by
  simp [mintedNonce]

theorem mintedNonce_len (hmac : Hmac) (secret : Str) (t : Nat)
    (hsig : (hmac (str ("nonce:") ++ natRepr t) secret).length = 64) :
    (mintedNonce hmac secret t).length = (natRepr t).length + 65 := by
  simp [mintedNonce, hsig]

/-- The Node challenge-verify handler on a well-formed fresh submission: a
nonce minted at `tn`, checked at `env.now` within the 5-minute budget, a
fingerprint of plausible length, and an un-throttled client lead to the
cookie mint and a 302 redirect to the sanitised return path. -/
theorem nodeGate_challenge_ok (hmac : Hmac) (hhex : HexOut hmac) (secret : Str)
    (cfg : NodeCfg)
    (hsec : jsOr cfg.challengeSecret (str ("default-secret-change-me")) = secret)
    (env : NodeEnv) (st : NodeState) (req : NodeReq) (tn : Nat) (rt fp : Str)
    (hpath : req.path = str ("/__challenge/verify"))
    (hmeth : req.method = str ("POST"))
    (hhits : rlLookup st.hits (clientIpOf req) = none)
    (hnonce : req.bodyNonce = some (mintedNonce hmac secret tn))
    (htn : (natRepr tn).length ≤ 63)
    (hrt : req.bodyReturnTo = some rt) (hrtne : rt ≠ []) (hrtlen : rt.length ≤ 2048)
    (hfp : req.bodyFp = some fp) (hfp10 : 10 ≤ fp.length) (hfp128 : fp.length ≤ 128)
    (hfresh : env.now - (tn : Int) ≤ 300000) :
    nodeGate hmac cfg env st req =
      (.ok (.redirect 302 (if jsStartsWith rt (str ("/")) then rt else str ("/"))
          (mintedCookie hmac secret env.now.toNat)),
       { st with hits := rlStore st.hits (clientIpOf req) ⟨env.now, 1⟩ }) := by
  have hpub : isPublicPath (str ("/__challenge/verify")) [] = false := by decide
  have hsigl := (hhex (str ("nonce:") ++ natRepr tn) secret).1
  have hnlen : (mintedNonce hmac secret tn).length ≤ 128 := by
    rw [mintedNonce_len hmac secret tn hsigl]; omega
  have hfpne : fp ≠ [] := by
    intro h; rw [h] at hfp10; simp at hfp10
  unfold nodeGate
  rw [hpath, hmeth, hsec]
  rw [if_neg (by rw [hpub]; simp)]
  rw [if_pos ⟨rfl, rfl⟩]
  simp only [rlCheck, hhits]
  rw [if_neg (by simp)]
  rw [hnonce, hrt, hfp,
    jsOr2_some_of_ne (mintedNonce_ne_nil hmac secret tn),
    jsOr2_some_of_ne hrtne, jsOr2_some_of_ne hfpne,
    List.take_of_length_le hnlen, List.take_of_length_le hrtlen,
    List.take_of_length_le hfp128]
  simp only [mintedNonce,
    charIndexOf_append_of_not_mem (not_mem_natRepr dot_not_dec tn),
    take_len, drop_len_succ, parseIntDec_natRepr]
  rw [if_neg (by
    intro hor
    rcases hor with h | h
    · exact hfpne h
    · omega)]
  rw [if_neg (by omega)]
  rw [if_neg (by simp)]
  rw [nodeTimingSafeEqual, if_pos rfl]
  simp [mintedCookie]

-- Concrete instantiations used by witnesses and counterexamples --------------

/-- A stand-in for the edge `timingSafeEqual` fixed-key digest in concrete
runs (only equality of outputs matters there). -/
def macModel : Str → Str := fun s => s

def secretC : Str := str ("s3cr3t")

/-- 16 hex characters, as drawn from `crypto.randomUUID()`. -/
def r16C : Str := str ("0123456789abcdef")

def cfgChalC : NodeCfg :=
  { challengeSecret := some secretC, verifyUrl := none, apiKey := none }

def stEmptyC : NodeState := { cache := [], hits := [], merchantConfig := none }

def envChalC : NodeEnv :=
  { now := 2, random := r16C,
    verifyResp := { ok := false, jsonBody := .error () },
    merchantFetch := .error () }

def reqChalC : NodeReq :=
  { path := str ("/__challenge/verify"), method := str ("POST"),
    ip := some (str ("203.0.113.1")), xForwardedFor := none,
    agentKey := none, secFetchMode := none, secFetchDest := none,
    cookieHeader := none,
    bodyNonce := some (mintedNonce hmacModel secretC 2),
    bodyReturnTo := some (str ("/dest")),
    bodyFp := some (str ("0123456789")),
    queryNonce := none, queryReturnTo := none, queryFp := none,
    originalUrl := str ("/__challenge/verify") }

def reqEvilC : NodeReq :=
  { path := str ("/__challenge/verify"), method := str ("POST"),
    ip := some (str ("203.0.113.1")), xForwardedFor := none,
    agentKey := none, secFetchMode := none, secFetchDest := none,
    cookieHeader := none,
    bodyNonce := some (mintedNonce hmacModel secretC 2),
    bodyReturnTo := some (str ("//evil.example")),
    bodyFp := some (str ("0123456789")),
    queryNonce := none, queryReturnTo := none, queryFp := none,
    originalUrl := str ("/__challenge/verify") }

-- C8 -------------------------------------------------------------------------

/-- C8: mint-then-validate is the identity on the valid predicate — a key
produced by `generateAgentKey` validates under the same secret; a cookie
minted at time `t` validates at the same time `t`; a nonce minted at `tn`
passes the challenge-verify handler when checked at `now = tn` (the handler
answers with the 302 redirect rather than a 403). -/
theorem C8_mint_then_validate (hmac : Hmac) (hhex : HexOut hmac)
    (secret random : Str) (hrl : random.length ≤ 44) (hru : '_' ∉ random)
    (t tn : Nat) (cfg : NodeCfg)
    (hsec : jsOr cfg.challengeSecret (str ("default-secret-change-me")) = secret)
    (env : NodeEnv) (henv : env.now = (tn : Int))
    (st : NodeState) (req : NodeReq) (rt fp : Str)
    (hpath : req.path = str ("/__challenge/verify"))
    (hmeth : req.method = str ("POST"))
    (hhits : rlLookup st.hits (clientIpOf req) = none)
    (hnonce : req.bodyNonce = some (mintedNonce hmac secret tn))
    (htn : (natRepr tn).length ≤ 63)
    (hrt : req.bodyReturnTo = some rt) (hrtne : rt ≠ []) (hrtlen : rt.length ≤ 2048)
    (hfp : req.bodyFp = some fp) (hfp10 : 10 ≤ fp.length) (hfp128 : fp.length ≤ 128) :
    Node.isValidAgentKey hmac (generateAgentKey hmac random secret) secret = .ok true
    ∧ Node.isValidCookie hmac secret (t : Int)
        (some (COOKIE_NAME ++ '=' :: mintedCookie hmac secret t)) = .ok true
    ∧ (nodeGate hmac cfg env st req).1
        = .ok (.redirect 302 (if jsStartsWith rt (str ("/")) then rt else str ("/"))
            (mintedCookie hmac secret env.now.toNat)) := by
  refine ⟨isValidAgentKey_generated hmac hhex random secret hrl hru, ?_, ?_⟩
  · rw [isValidCookie_minted hmac hhex secret (t : Int) t]
    have hle : (t : Int) - t ≤ 86400000 := by omega
    simp [hle]
  · rw [nodeGate_challenge_ok hmac hhex secret cfg hsec env st req tn rt fp hpath
      hmeth hhits hnonce htn hrt hrtne hrtlen hfp hfp10 hfp128 (by rw [henv]; omega)]

theorem C8_witness :
    Node.isValidAgentKey hmacModel (generateAgentKey hmacModel r16C secretC) secretC
        = .ok true
    ∧ Node.isValidCookie hmacModel secretC 7
        (some (COOKIE_NAME ++ '=' :: mintedCookie hmacModel secretC 7)) = .ok true
    ∧ (nodeGate hmacModel cfgChalC envChalC stEmptyC reqChalC).1
        = .ok (.redirect 302 (str ("/dest")) (mintedCookie hmacModel secretC 2)) := by
  have h := C8_mint_then_validate hmacModel hexOut_hmacModel secretC r16C
    (by decide) (by decide) 7 2 cfgChalC (by decide) envChalC rfl stEmptyC reqChalC
    (str ("/dest")) (str ("0123456789")) rfl rfl rfl rfl (by decide) rfl
    (by decide) (by decide) rfl (by decide) (by decide)
  exact ⟨h.1, h.2.1, h.2.2.trans (by decide)⟩

-- C10 ------------------------------------------------------------------------

/-- C10: on a successful challenge-verify POST the `Location` header is the
submitted `return_to` whenever its first character is `/` — protocol-relative
values such as `//evil.example` included — and is rewritten to `/` exactly
when it does not start with `/`. -/
theorem C10_return_to_location (hmac : Hmac) (hhex : HexOut hmac) (secret : Str)
    (cfg : NodeCfg)
    (hsec : jsOr cfg.challengeSecret (str ("default-secret-change-me")) = secret)
    (env : NodeEnv) (st : NodeState) (req : NodeReq) (tn : Nat) (rt fp : Str)
    (hpath : req.path = str ("/__challenge/verify"))
    (hmeth : req.method = str ("POST"))
    (hhits : rlLookup st.hits (clientIpOf req) = none)
    (hnonce : req.bodyNonce = some (mintedNonce hmac secret tn))
    (htn : (natRepr tn).length ≤ 63)
    (hrt : req.bodyReturnTo = some rt) (hrtne : rt ≠ []) (hrtlen : rt.length ≤ 2048)
    (hfp : req.bodyFp = some fp) (hfp10 : 10 ≤ fp.length) (hfp128 : fp.length ≤ 128)
    (hfresh : env.now - (tn : Int) ≤ 300000) :
    (nodeGate hmac cfg env st req).1
      = .ok (.redirect 302 (if jsStartsWith rt (str ("/")) then rt else str ("/"))
          (mintedCookie hmac secret env.now.toNat)) := by
  rw [nodeGate_challenge_ok hmac hhex secret cfg hsec env st req tn rt fp hpath
    hmeth hhits hnonce htn hrt hrtne hrtlen hfp hfp10 hfp128 hfresh]

theorem C10_witness :
    (nodeGate hmacModel cfgChalC envChalC stEmptyC reqEvilC).1
      = .ok (.redirect 302 (str ("//evil.example")) (mintedCookie hmacModel secretC 2)) := by
  have h := C10_return_to_location hmacModel hexOut_hmacModel secretC cfgChalC
    (by decide) envChalC stEmptyC reqEvilC 2 (str ("//evil.example")) (str ("0123456789"))
    rfl rfl rfl rfl (by decide) rfl (by decide) (by decide) rfl (by decide) (by decide)
    (by decide)
  exact h.trans (by decide)

-- C9 -------------------------------------------------------------------------

/-- C9: on a key that passes the prefix, length and underscore checks but
whose signature tail does not have the 16-byte length of the truncated
digest, the Node validator propagates the `RangeError` that
`crypto.timingSafeEqual` throws on unequal-length buffers, while the edge
validator returns `false`; the two adapters diverge on the same input. -/
theorem C9_adapters_diverge (hmac : Hmac) (mac : Str → Str) (hhex : HexOut hmac)
    (secret key : Str) (i : Nat)
    (hne : key ≠ []) (hlen : key.length ≤ 64)
    (hpre : jsStartsWith key keyPref = true)
    (hidx : charIndexOf (key.drop keyPref.length) '_' = some i)
    (hsb : byteLen ((key.drop keyPref.length).drop (i + 1)) ≠ 16)
    (hsl : ((key.drop keyPref.length).drop (i + 1)).length ≠ 16) :
    Node.isValidAgentKey hmac key secret = .error ()
    ∧ Edge.isValidAgentKey hmac mac key secret = false := by
  obtain ⟨hl, hx⟩ := hhex ((key.drop keyPref.length).take i) secret
  have h16 : ((hmac ((key.drop keyPref.length).take i) secret).take 16).length = 16 := by
    rw [List.length_take, hl]; decide
  have h16b : byteLen ((hmac ((key.drop keyPref.length).take i) secret).take 16) = 16 := by
    rw [byteLen_of_hex (isHex_take _ 16 hx), h16]
  constructor
  · unfold Node.isValidAgentKey
    rw [if_neg (by simp [hne]), if_neg (by omega), if_neg (by rw [hpre]; simp)]
    simp only [hidx]
    rw [nodeTimingSafeEqual, if_neg (by rw [h16b]; exact hsb)]
  · unfold Edge.isValidAgentKey
    rw [if_neg (by simp [hne]), if_neg (by omega), if_neg (by rw [hpre]; simp)]
    simp only [hidx]
    unfold Edge.timingSafeEqual
    rw [h16]
    have hsl' : List.length key - (List.length keyPref + (i + 1)) ≠ 16 := by
      have h' := hsl
      rw [List.length_drop, List.length_drop] at h'
      omega
    simp [hsl']

theorem C9_witness :
    Node.isValidAgentKey hmacModel (str ("ag_a_b")) secretC = .error ()
    ∧ Edge.isValidAgentKey hmacModel macModel (str ("ag_a_b")) secretC = false :=
  C9_adapters_diverge hmacModel macModel hexOut_hmacModel secretC (str ("ag_a_b")) 1
    (by decide) (by decide) (by decide) (by decide) (by decide) (by decide)

-- C6: the fixed rate-limit window ---------------------------------------------

/-- Iterated `RateLimiter.check` calls for one client, one per timestamp. -/
def rlRunSeq (windowMs : Int) (maxN : Nat) (key : Str) :
    List Int → RLMap → List Bool × RLMap
  | [], st => ([], st)
  | t :: ts, st =>
      let r := rlCheck windowMs maxN t st key
      let rest := rlRunSeq windowMs maxN key ts r.2
      (r.1 :: rest.1, rest.2)

/-- The permit answers inside one window, starting from a bucket count `k`. -/
def expectedPermits (maxN : Nat) : Nat → Nat → List Bool
  | _, 0 => []
  | k, n + 1 => decide (k + 1 ≤ maxN) :: expectedPermits maxN (k + 1) n

theorem expectedPermits_get? (maxN : Nat) :
    ∀ (n k i : Nat), i < n →
      (expectedPermits maxN k n).get? i = some (decide (k + i + 1 ≤ maxN))
  | 0, _, i, hi => by omega
  | n + 1, k, 0, _ => by simp [expectedPermits]
  | n + 1, k, i + 1, hi => by
      simp only [expectedPermits, List.get?_cons_succ]
      rw [expectedPermits_get? maxN n (k + 1) i (by omega)]
      exact congrArg some (decide_eq_decide.mpr (by omega))

theorem expectedPermits_length (maxN : Nat) :
    ∀ n k, (expectedPermits maxN k n).length = n
  | 0, _ => rfl
  | n + 1, k => by simp [expectedPermits, expectedPermits_length maxN n (k + 1)]

/-- Inside the window that started at `t0`, each further call increments the
bucket and is permitted exactly while the count stays within `maxN`. -/
theorem rlSeq_window (key : Str) (t0 : Int) :
    ∀ (ts : List Int) (k : Nat), (∀ t ∈ ts, t - t0 ≤ 60000) →
      rlRunSeq 60000 20 key ts [(key, ⟨t0, k⟩)]
        = (expectedPermits 20 k ts.length, [(key, ⟨t0, k + ts.length⟩)])
  | [], k, _ => by simp [rlRunSeq, expectedPermits]
  | t :: ts, k, h => by
      unfold rlRunSeq
      have hl : rlLookup [(key, (⟨t0, k⟩ : RLEntry))] key = some ⟨t0, k⟩ := by
        simp [rlLookup]
      simp only [rlCheck, hl]
      rw [if_neg (by have := h t (by simp); omega)]
      have hs : rlStore [(key, (⟨t0, k⟩ : RLEntry))] key ⟨t0, k + 1⟩
          = [(key, ⟨t0, k + 1⟩)] := by simp [rlStore]
      simp only [hs]
      rw [rlSeq_window key t0 ts (k + 1) (fun t ht => h t (by simp [ht]))]
      simp only [expectedPermits, List.length_cons]
      have hk : k + 1 + ts.length = k + (ts.length + 1) := by omega
      rw [hk]

/-- C6: starting from an empty bucket, within a single fixed 60-second window
the first call and the following ones are permitted while the count is at
most 20 — call `i` (0-based) answers `decide (i < 20)`, so calls 1-20 get
`true` and the 21st and every later call in the window get `false`; a call
after the window has elapsed starts a fresh window and is permitted. -/
theorem C6_fixed_window (ip : Str) (t0 : Int) (ts : List Int) (t' : Int)
    (hin : ∀ t ∈ ts, t - t0 ≤ 60000) (hout : t' - t0 > 60000) :
    (∀ i, i < ts.length + 1 →
      (rlRunSeq RATE_LIMIT_WINDOW RATE_LIMIT_MAX ip (t0 :: ts) []).1.get? i
        = some (decide (i < 20)))
    ∧ (rlCheck RATE_LIMIT_WINDOW RATE_LIMIT_MAX t'
        (rlRunSeq RATE_LIMIT_WINDOW RATE_LIMIT_MAX ip (t0 :: ts) []).2 ip).1 = true := by
  have hfirst : rlRunSeq RATE_LIMIT_WINDOW RATE_LIMIT_MAX ip (t0 :: ts) []
      = (true :: expectedPermits 20 1 ts.length, [(ip, ⟨t0, 1 + ts.length⟩)]) := by
    unfold rlRunSeq
    have hl : rlLookup ([] : RLMap) ip = none := rfl
    simp only [rlCheck, hl, rlStore, RATE_LIMIT_WINDOW, RATE_LIMIT_MAX]
    rw [show (60 * 1000 : Int) = 60000 by norm_num] at *
    rw [rlSeq_window ip t0 ts 1 hin]
  constructor
  · intro i hi
    rw [hfirst]
    match i with
    | 0 => simp
    | i + 1 =>
        simp only [List.get?_cons_succ]
        rw [expectedPermits_get? 20 ts.length 1 i (by omega)]
        exact congrArg some (decide_eq_decide.mpr (by omega))
  · rw [hfirst]
    have hl : rlLookup [(ip, (⟨t0, 1 + ts.length⟩ : RLEntry))] ip
        = some ⟨t0, 1 + ts.length⟩ := by simp [rlLookup]
    simp only [rlCheck, hl]
    rw [if_pos (by simp only [RATE_LIMIT_WINDOW]; omega)]

theorem C6_witness :
    ((rlRunSeq RATE_LIMIT_WINDOW RATE_LIMIT_MAX (str ("203.0.113.1"))
        (0 :: List.replicate 21 60000) []).1.get? 20 = some false)
    ∧ (rlCheck RATE_LIMIT_WINDOW RATE_LIMIT_MAX 60001
        (rlRunSeq RATE_LIMIT_WINDOW RATE_LIMIT_MAX (str ("203.0.113.1"))
          (0 :: List.replicate 21 60000) []).2 (str ("203.0.113.1"))).1 = true := by
  have h := C6_fixed_window (str ("203.0.113.1")) 0 (List.replicate 21 60000) 60001
    (fun t ht => by rw [List.eq_of_mem_replicate ht]; omega) (by omega)
  exact ⟨(h.1 20 (by decide)).trans (by decide), h.2⟩

-- C7: the payment cache ------------------------------------------------------

/-- One `PaymentCache` operation, carrying its `Date.now()` timestamp. -/
inductive COp (α : Type) where
  | get (now : Int) (key : Str)
  | set (now : Int) (key : Str) (value : α)
deriving DecidableEq, Repr

/-- Apply one operation with the gate's TTL and capacity. -/
def cacheStep {α : Type} (c : Cache α) : COp α → Cache α
  | .get now k => (cacheGet PAYMENT_CACHE_TTL now c k).2
  | .set now k v => cacheSet PAYMENT_CACHE_MAX now c k v

def cacheRun {α : Type} : List (COp α) → Cache α → Cache α
  | [], c => c
  | op :: ops, c => cacheRun ops (cacheStep c op)

def opTime {α : Type} : COp α → Int
  | .get t _ => t
  | .set t _ _ => t

/-- The keys inserted by the `set` operations of a sequence, in order. -/
def setKeys {α : Type} : List (COp α) → List Str
  | [] => []
  | .get _ _ :: ops => setKeys ops
  | .set _ k _ :: ops => k :: setKeys ops

/-- Entries ordered by nondecreasing timestamp from the head: the head of the
`Map` is the earliest-inserted entry. -/
def TsSorted {α : Type} (c : Cache α) : Prop :=
  List.Pairwise (fun a b => a.ts ≤ b.ts) c

instance {α : Type} (c : Cache α) : Decidable (TsSorted c) := by
  unfold TsSorted; infer_instance

theorem cacheGet_snd_sublist {α : Type} (ttl now : Int) :
    ∀ (c : Cache α) (k : Str), ((cacheGet ttl now c k).2).Sublist c
  | [], _ => by simp [cacheGet]
  | e :: rest, k => by
      unfold cacheGet
      by_cases hk : e.key = k
      · rw [if_pos hk]
        by_cases ht : now - e.ts > ttl
        · rw [if_pos ht]
          exact List.sublist_cons_self e rest
        · rw [if_neg ht]
      · rw [if_neg hk]
        have ih := cacheGet_snd_sublist ttl now rest k
        cases hres : cacheGet ttl now rest k with
        | mk r rest' =>
            rw [hres] at ih
            simpa [hres] using List.Sublist.cons₂ e ih

theorem cacheMapSet_length {α : Type} :
    ∀ (c : Cache α) (k : Str) (v : α) (t : Int),
      (cacheMapSet c k v t).length ≤ c.length + 1
  | [], _, _, _ => by simp [cacheMapSet]
  | e :: rest, k, v, t => by
      unfold cacheMapSet
      by_cases hk : e.key = k
      · rw [if_pos hk]; simp
      · rw [if_neg hk]
        have := cacheMapSet_length rest k v t
        simpa using Nat.succ_le_succ this

theorem cacheMapSet_fresh {α : Type} :
    ∀ (c : Cache α) (k : Str) (v : α) (t : Int), (∀ e ∈ c, e.key ≠ k) →
      cacheMapSet c k v t = c ++ [⟨k, v, t⟩]
  | [], _, _, _, _ => rfl
  | e :: rest, k, v, t, h => by
      unfold cacheMapSet
      rw [if_neg (h e (by simp)), cacheMapSet_fresh rest k v t
        (fun x hx => h x (by simp [hx]))]
      simp

theorem cacheSet_length_le {α : Type} (now : Int) (c : Cache α) (k : Str) (v : α)
    (h : c.length ≤ 1000) :
    (cacheSet PAYMENT_CACHE_MAX now c k v).length ≤ 1000 := by
  unfold cacheSet PAYMENT_CACHE_MAX
  by_cases hc : 1000 ≤ c.length
  · rw [if_pos hc]
    have := cacheMapSet_length (c.drop 1) k v now
    have hd : (c.drop 1).length = c.length - 1 := by simp
    omega
  · rw [if_neg hc]
    have := cacheMapSet_length c k v now
    omega

theorem cacheRun_length_le {α : Type} :
    ∀ (ops : List (COp α)) (c : Cache α), c.length ≤ 1000 →
      (cacheRun ops c).length ≤ 1000
  | [], _, h => h
  | op :: ops, c, h => by
      unfold cacheRun
      apply cacheRun_length_le ops
      cases op with
      | get t k =>
          have := (cacheGet_snd_sublist PAYMENT_CACHE_TTL t c k).length_le
          simp only [cacheStep]
          omega
      | set t k v => exact cacheSet_length_le t c k v h

theorem tsSorted_head_min {α : Type} (h : CEntry α) (t : Cache α)
    (hs : TsSorted (h :: t)) : ∀ e ∈ h :: t, h.ts ≤ e.ts := by
  intro e he
  rcases List.mem_cons.mp he with rfl | he
  · exact le_refl _
  · exact (List.pairwise_cons.mp hs).1 e he

theorem cacheRun_sorted_aux {α : Type} :
    ∀ (ops : List (COp α)) (c : Cache α) (seen : List Str),
      TsSorted c →
      (∀ e ∈ c, ∀ op ∈ ops, e.ts ≤ opTime op) →
      (∀ e ∈ c, e.key ∈ seen) →
      List.Pairwise (· ≤ ·) (ops.map opTime) →
      (∀ k ∈ setKeys ops, k ∉ seen) →
      (setKeys ops).Nodup →
      TsSorted (cacheRun ops c)
  | [], c, seen, hs, _, _, _, _, _ => hs
  | .get t k :: ops, c, seen, hs, hb, hks, hpw, hfresh, hnd => by
      unfold cacheRun
      have hsub := cacheGet_snd_sublist PAYMENT_CACHE_TTL t c k
      have hpwc := List.pairwise_cons.mp hpw
      refine cacheRun_sorted_aux ops _ seen
        (List.Pairwise.sublist hsub hs)
        (fun e he op hop => hb e (hsub.subset he) op (by simp [hop]))
        (fun e he => hks e (hsub.subset he))
        hpwc.2
        (fun k' hk' => hfresh k' (by simpa [setKeys] using hk'))
        (by simpa [setKeys] using hnd)
  | .set t k v :: ops, c, seen, hs, hb, hks, hpw, hfresh, hnd => by
      unfold cacheRun
      have hkk : k ∉ seen := hfresh k (by simp [setKeys])
      have hpwc := List.pairwise_cons.mp hpw
      set c1 : Cache α := if PAYMENT_CACHE_MAX ≤ c.length then c.drop 1 else c with hc1
      have hsub1 : c1.Sublist c := by
        rw [hc1]
        by_cases h : PAYMENT_CACHE_MAX ≤ c.length
        · rw [if_pos h]; exact List.drop_sublist 1 c
        · rw [if_neg h]
      have hfr : ∀ e ∈ c1, e.key ≠ k := fun e he hek =>
        hkk (hek ▸ hks e (hsub1.subset he))
      have hstep : cacheStep c (.set t k v) = c1 ++ [⟨k, v, t⟩] := by
        simp only [cacheStep, cacheSet, ← hc1]
        exact cacheMapSet_fresh c1 k v t hfr
      rw [hstep]
      have hbt : ∀ e ∈ c1, e.ts ≤ t := fun e he =>
        hb e (hsub1.subset he) (.set t k v) (by simp)
      refine cacheRun_sorted_aux ops (c1 ++ [⟨k, v, t⟩]) (k :: seen) ?_ ?_ ?_ ?_ ?_ ?_
      · rw [TsSorted, List.pairwise_append]
        refine ⟨List.Pairwise.sublist hsub1 hs, by simp, fun a ha b hb2 => ?_⟩
        simp at hb2
        rw [hb2]
        exact hbt a ha
      · intro e he op hop
        rcases List.mem_append.mp he with he | he
        · exact hb e (hsub1.subset he) op (by simp [hop])
        · simp at he
          rw [he]
          have hle := hpwc.1 (opTime op) (List.mem_map_of_mem opTime hop)
          simpa [opTime] using hle
      · intro e he
        rcases List.mem_append.mp he with he | he
        · exact List.mem_cons_of_mem _ (hks e (hsub1.subset he))
        · simp at he
          rw [he]
          simp
      · exact hpwc.2
      · intro k' hk' hmem
        have hnd' := List.nodup_cons.mp (by simpa [setKeys] using hnd)
        rcases List.mem_cons.mp hmem with rfl | hmem
        · exact hnd'.1 hk'
        · exact hfresh k' (by simp [setKeys, hk']) hmem
      · exact (List.nodup_cons.mp (by simpa [setKeys] using hnd)).2

/-- C7: from an empty cache, every sequence of `get`/`set` operations keeps
the `PaymentCache` at or below 1000 entries; a `set` against a cache at
capacity evicts exactly the head of the insertion order (FIFO) and appends
the new entry; under monotone clocks and distinct inserted keys the cache
stays sorted by timestamp, so the evicted head is the entry with the
earliest insertion time. -/
theorem C7_payment_cache :
    (∀ ops : List (COp Bool), (cacheRun ops []).length ≤ 1000)
    ∧ (∀ (maxSize : Nat) (now : Int) (c : Cache Bool) (k : Str) (v : Bool),
        maxSize ≤ c.length → (∀ e ∈ c, e.key ≠ k) →
        cacheSet maxSize now c k v = c.drop 1 ++ [⟨k, v, now⟩])
    ∧ (∀ ops : List (COp Bool),
        List.Pairwise (· ≤ ·) (ops.map opTime) → (setKeys ops).Nodup →
        TsSorted (cacheRun ops []))
    ∧ (∀ (h : CEntry Bool) (t : Cache Bool), TsSorted (h :: t) →
        ∀ e ∈ h :: t, h.ts ≤ e.ts) := by
  refine ⟨?_, ?_, ?_, tsSorted_head_min⟩
  · intro ops
    exact cacheRun_length_le ops [] (by simp)
  · intro maxSize now c k v hcap hfr
    unfold cacheSet
    rw [if_pos hcap]
    exact cacheMapSet_fresh (c.drop 1) k v now
      (fun e he => hfr e ((List.drop_sublist 1 c).subset he))
  · intro ops hpw hnd
    exact cacheRun_sorted_aux ops [] []
      List.Pairwise.nil
      (fun e he => absurd he (List.not_mem_nil e))
      (fun e he => absurd he (List.not_mem_nil e))
      hpw (by simp) hnd

theorem C7_witness :
    (cacheRun [COp.set 0 (str ("a")) true, COp.set 1 (str ("b")) true]
        ([] : Cache Bool)).length ≤ 1000
    ∧ cacheSet 2 5 [⟨str ("a"), true, 0⟩, ⟨str ("b"), true, 1⟩] (str ("c")) true
        = [⟨str ("b"), true, 1⟩, ⟨str ("c"), true, 5⟩]
    ∧ TsSorted (cacheRun [COp.set 0 (str ("a")) true, COp.set 1 (str ("b")) true]
        ([] : Cache Bool))
    ∧ (∀ e ∈ [(⟨str ("a"), true, 0⟩ : CEntry Bool), ⟨str ("b"), true, 1⟩],
        (⟨str ("a"), true, 0⟩ : CEntry Bool).ts ≤ e.ts) := by
  have h := C7_payment_cache
  refine ⟨h.1 _, ?_, h.2.2.1 _ (by decide) (by decide), h.2.2.2 _ _ (by decide)⟩
  have h2 := h.2.1 2 5 [⟨str ("a"), true, 0⟩, ⟨str ("b"), true, 1⟩] (str ("c")) true
    (by decide) (by decide)
  exact h2.trans (by decide)

-- The agent verify route (valid key, cache miss, configured backend) ---------

/-- The unpaid-retry 402 body of the backend-verify Node gate. -/
def body402Retry (hmac : Hmac) (secret key : Str) (mc : MerchantConfig) : Body :=
  { error := str ("payment_required"),
    message := msg402RetryNode,
    your_key := some key,
    payment := some
      { chain := str ("solana"),
        network := if mc.network = str ("devnet") then str ("devnet")
          else str ("mainnet-beta"),
        token := str ("USDC"),
        amount := MIN_PAYMENT_STR,
        wallet_address := mc.walletAddress,
        memo := derivePaymentMemo hmac key secret,
        instructions := none },
    details := none }

/-- On a non-browser request with a valid key, a cache miss and a configured
backend, the gate's answer is decided by `verifyPaymentViaBackend`: passthrough
on `paid`, the retry 402 on unpaid, and an escaped exception when
`resp.json()` rejects. -/
theorem nodeGate_verify_outcome (hmac : Hmac) (secret : Str) (cfg : NodeCfg)
    (hsec : jsOr cfg.challengeSecret (str ("default-secret-change-me")) = secret)
    (env : NodeEnv) (st : NodeState) (req : NodeReq) (key : Str) (mc : MerchantConfig)
    (hpub : isPublicPath req.path [] = false)
    (hchal : req.path ≠ str ("/__challenge/verify"))
    (hbrow : isBrowser req.secFetchMode req.secFetchDest = false)
    (hkey : req.agentKey = some key) (hkne : key ≠ [])
    (hvalid : Node.isValidAgentKey hmac key secret = .ok true)
    (hmiss : (cacheGet PAYMENT_CACHE_TTL env.now st.cache key).1 ≠ some true)
    (hvu : jsTruthy cfg.verifyUrl = true) (hak : jsTruthy cfg.apiKey = true)
    (hmc : st.merchantConfig = some mc) :
    (nodeGate hmac cfg env st req).1
      = (match verifyPaymentViaBackend env.verifyResp with
        | .error _ => .error ()
        | .ok true => .ok .next
        | .ok false => .ok (.json 402 (body402Retry hmac secret key mc))) := by
  unfold nodeGate
  rw [hsec]
  rw [if_neg (by rw [hpub]; simp)]
  rw [if_neg (fun hand => hchal hand.1)]
  rw [if_pos hbrow]
  rw [hkey]
  rw [if_neg (by simp [jsTruthy, hkne])]
  rw [jsOr_some_of_ne hkne]
  simp only [hvalid]
  rw [if_neg hmiss]
  rw [if_neg (by simp [hvu, hak])]
  cases hver : verifyPaymentViaBackend env.verifyResp with
  | error e => simp
  | ok paid =>
      cases paid with
      | true => simp
      | false => simp [getMerchantConfig, hmc, body402Retry]

-- Concrete agent-route constants ---------------------------------------------

/-- A key the gate itself would mint under `hmacModel`. -/
def keyC : Str := generateAgentKey hmacModel r16C secretC

/-- A 32-char base58 wallet. -/
def walletC : Str := str ("11111111111111111111111111111111")

def mcC : MerchantConfig := { walletAddress := walletC, network := str ("devnet") }

def cfgVerifC : NodeCfg :=
  { challengeSecret := some secretC,
    verifyUrl := some (str ("https://verify.example/verify")),
    apiKey := some (str ("apikey")) }

def stMcC : NodeState := { cache := [], hits := [], merchantConfig := some mcC }

/-- The environment of one agent request whose verify call answers `resp`. -/
def envC (resp : HttpResp) : NodeEnv :=
  { now := 0, random := r16C, verifyResp := resp, merchantFetch := .ok mcC }

/-- A plain non-browser `GET /data` carrying the given X-Agent-Key value. -/
def reqKeyC (key : Str) : NodeReq :=
  { path := str ("/data"), method := str ("GET"),
    ip := some (str ("1.2.3.4")), xForwardedFor := none,
    agentKey := some key, secFetchMode := none, secFetchDest := none,
    cookieHeader := none,
    bodyNonce := none, bodyReturnTo := none, bodyFp := none,
    queryNonce := none, queryReturnTo := none, queryFp := none,
    originalUrl := str ("/data") }

def respPaidC : HttpResp := { ok := true, jsonBody := .ok { paid := some true } }

def respUnpaidC : HttpResp := { ok := true, jsonBody := .ok { paid := some false } }

-- C3 -------------------------------------------------------------------------

/-- C3 (counterexample): with a valid key, a cache miss, and a configured
backend, a 2xx verify response whose body is not well-formed JSON makes the
`resp.json()` rejection escape the middleware — the request ends in an
exception, not in a 402 response. -/
theorem C3_counterexample :
    (nodeGate hmacModel cfgVerifC (envC { ok := true, jsonBody := .error () })
      stMcC (reqKeyC keyC)).1 = .error () := by decide

/-- C3 (amended): a non-2xx verify response and a 2xx JSON body without
`paid: true` are both treated as unpaid and answered with the retry 402; but
a 2xx response whose body fails JSON parsing is not caught anywhere — the
exception escapes the request handler instead of producing a 402. -/
theorem C3_verify_error_handling (hmac : Hmac) (secret : Str) (cfg : NodeCfg)
    (hsec : jsOr cfg.challengeSecret (str ("default-secret-change-me")) = secret)
    (env : NodeEnv) (st : NodeState) (req : NodeReq) (key : Str) (mc : MerchantConfig)
    (hpub : isPublicPath req.path [] = false)
    (hchal : req.path ≠ str ("/__challenge/verify"))
    (hbrow : isBrowser req.secFetchMode req.secFetchDest = false)
    (hkey : req.agentKey = some key) (hkne : key ≠ [])
    (hvalid : Node.isValidAgentKey hmac key secret = .ok true)
    (hmiss : (cacheGet PAYMENT_CACHE_TTL env.now st.cache key).1 ≠ some true)
    (hvu : jsTruthy cfg.verifyUrl = true) (hak : jsTruthy cfg.apiKey = true)
    (hmc : st.merchantConfig = some mc) :
    (env.verifyResp.ok = false →
      (nodeGate hmac cfg env st req).1
        = .ok (.json 402 (body402Retry hmac secret key mc)))
    ∧ (∀ d, env.verifyResp.ok = true → env.verifyResp.jsonBody = .ok d →
        d.paid ≠ some true →
        (nodeGate hmac cfg env st req).1
          = .ok (.json 402 (body402Retry hmac secret key mc)))
    ∧ (env.verifyResp.ok = true → env.verifyResp.jsonBody = .error () →
        (nodeGate hmac cfg env st req).1 = .error ()) := by
  have h := nodeGate_verify_outcome hmac secret cfg hsec env st req key mc
    hpub hchal hbrow hkey hkne hvalid hmiss hvu hak hmc
  refine ⟨?_, ?_, ?_⟩
  · intro hok
    rw [h, verifyPaymentViaBackend, if_pos hok]
  · intro d hok hbody hpaid
    rw [h, verifyPaymentViaBackend, if_neg (by rw [hok]; simp), hbody]
    simp [hpaid]
  · intro hok hbody
    rw [h, verifyPaymentViaBackend, if_neg (by rw [hok]; simp), hbody]

theorem C3_witness :
    (nodeGate hmacModel cfgVerifC (envC { ok := true, jsonBody := .ok { paid := none } })
      stMcC (reqKeyC keyC)).1
      = .ok (.json 402 (body402Retry hmacModel secretC keyC mcC)) := by
  have h := C3_verify_error_handling hmacModel secretC cfgVerifC (by decide)
    (envC { ok := true, jsonBody := .ok { paid := none } }) stMcC (reqKeyC keyC)
    keyC mcC (by decide) (by decide) (by decide) rfl (by decide) (by decide)
    (by decide) (by decide) (by decide) rfl
  exact h.2.1 { paid := none } rfl rfl (by decide)

-- C4 -------------------------------------------------------------------------

/-- 44 underscore-free hex characters, so that the minted key has exactly the
limit length 64. -/
def r44C : Str := str ("0123456789abcdef0123456789abcdef0123456789ab")

def key64C : Str := generateAgentKey hmacModel r44C secretC

/-- `key64C` with one extra character: 65 characters long, truncating to the
valid `key64C`. -/
def key65C : Str := key64C ++ [('a' : Char)]

/-- C4: the gate never truncates the `X-Agent-Key` header.  A 65-character
key whose 64-character truncation is a validly signed key is rejected by
`isValidAgentKey` and answered 403, while the truncated key itself validates
and is processed (here the backend reports paid, so it passes through) — the
oversized key is an error by itself, contrary to the documented
truncate-and-continue behaviour. -/
theorem C4_oversized_key_rejected :
    Node.isValidAgentKey hmacModel key65C secretC = .ok false
    ∧ (nodeGate hmacModel cfgVerifC (envC respPaidC) stMcC (reqKeyC key65C)).1
        = .ok (.json 403 bodyForbiddenKey)
    ∧ Node.isValidAgentKey hmacModel (key65C.take 64) secretC = .ok true
    ∧ (nodeGate hmacModel cfgVerifC (envC respPaidC) stMcC (reqKeyC (key65C.take 64))).1
        = .ok .next :=
  ⟨by decide, by decide, by decide, by decide⟩

-- C2 -------------------------------------------------------------------------

def cfgNoSecretC : NodeCfg :=
  { challengeSecret := none,
    verifyUrl := some (str ("https://verify.example/verify")),
    apiKey := some (str ("apikey")) }

def reqRobotsC : NodeReq :=
  { path := str ("/robots.txt"), method := str ("GET"),
    ip := some (str ("1.2.3.4")), xForwardedFor := none,
    agentKey := none, secFetchMode := none, secFetchDest := none,
    cookieHeader := none,
    bodyNonce := none, bodyReturnTo := none, bodyFp := none,
    queryNonce := none, queryReturnTo := none, queryFp := none,
    originalUrl := str ("/robots.txt") }

def reqBrowserC : NodeReq :=
  { path := str ("/page"), method := str ("GET"),
    ip := some (str ("1.2.3.4")), xForwardedFor := none,
    agentKey := none, secFetchMode := some (str ("navigate")), secFetchDest := none,
    cookieHeader := none,
    bodyNonce := none, bodyReturnTo := none, bodyFp := none,
    queryNonce := none, queryReturnTo := none, queryFp := none,
    originalUrl := str ("/page") }

def envEdgeProdC : EdgeEnvVars :=
  { CHALLENGE_SECRET := some (str ("default-secret-change-me")),
    HOME_WALLET_ADDRESS := none, DEBUG := some (str ("false")),
    SOLANA_RPC_URL := none, USDC_MINT := none }

/-- C2: with the sentinel default secret and no debug override, the
backend-verify Node gate only logs a warning and serves traffic normally — a
public path passes through and a browser request is served the challenge
page — while the edge gate refuses every request with a 500 `server_error`
when `DEBUG` is `'false'`. -/
theorem C2_default_secret_behavior :
    (nodeGate hmacModel cfgNoSecretC (envC respPaidC) stMcC reqRobotsC).1 = .ok .next
    ∧ (nodeGate hmacModel cfgNoSecretC (envC respPaidC) stMcC reqBrowserC).1
        = .ok (.challenge (str ("/page"))
            (mintedNonce hmacModel (str ("default-secret-change-me")) 0))
    ∧ (∀ (orc : EdgeOracles) (stE : EdgeState) (reqE : EdgeReq),
        (edgeGate hmacModel macModel [] MIN_PAYMENT_STR envEdgeProdC orc stE reqE).1
          = .json 500 bodyInsecureDefault) := by
  refine ⟨by decide, by decide, ?_⟩
  intro orc stE reqE
  rfl

-- C1 -------------------------------------------------------------------------

/-- A key that the Node validator accepts starts with the `ag_` prefix. -/
theorem validKey_startsWith (hmac : Hmac) (key secret : Str)
    (h : Node.isValidAgentKey hmac key secret = .ok true) :
    jsStartsWith key keyPref = true := by
  unfold Node.isValidAgentKey at h
  by_cases h1 : key = []
  · rw [if_pos h1] at h; simp at h
  · rw [if_neg h1] at h
    by_cases h2 : 64 < key.length
    · rw [if_pos h2] at h; simp at h
    · rw [if_neg h2] at h
      cases hb : jsStartsWith key keyPref
      · rw [if_pos hb] at h; simp at h
      · rfl

/-- Shape facts about a derived payment memo: 19 characters, `gm_` prefix,
and never equal to an `ag_`-prefixed key. -/
theorem memo_spec (hmac : Hmac) (hhex : HexOut hmac) (k secret : Str)
    (hk : jsStartsWith k keyPref = true) :
    (derivePaymentMemo hmac k secret).length = 19
    ∧ jsStartsWith (derivePaymentMemo hmac k secret) (str ("gm_")) = true
    ∧ derivePaymentMemo hmac k secret ≠ k := by
  obtain ⟨hl, _⟩ := hhex k secret
  refine ⟨?_, ?_, ?_⟩
  · have h3 : (str ("gm_")).length = 3 := by decide
    simp [derivePaymentMemo, List.length_take, hl, h3]
  · exact jsStartsWith_append (str ("gm_")) _
  · obtain ⟨t, ht⟩ := jsStartsWith_elim hk
    intro heq
    rw [ht] at heq
    have hkp : keyPref = 'a' :: 'g' :: '_' :: ([] : Str) := by decide
    have hgm : str ("gm_") = 'g' :: 'm' :: '_' :: ([] : Str) := by decide
    rw [derivePaymentMemo, hgm, hkp] at heq
    simp at heq

/-- C1 (amended): every 402 the backend-verify Node gate issues — first
issuance and unpaid retry — carries `payment.memo = derivePaymentMemo` of the
returned `your_key`: deterministic in the key and secret, 19 characters,
`gm_`-prefixed, and never equal to the raw agent key.  (The edge gate, by
contrast, uses the raw agent key itself as the memo.) -/
theorem C1_node_memo (hmac : Hmac) (hhex : HexOut hmac) (cfg : NodeCfg)
    (env : NodeEnv) (st : NodeState) (req : NodeReq) (b : Body) (st' : NodeState)
    (hrun : nodeGate hmac cfg env st req = (.ok (.json 402 b), st')) :
    ∃ k p, b.your_key = some k ∧ b.payment = some p
      ∧ p.memo = derivePaymentMemo hmac k
          (jsOr cfg.challengeSecret (str ("default-secret-change-me")))
      ∧ p.memo.length = 19
      ∧ jsStartsWith p.memo (str ("gm_")) = true
      ∧ p.memo ≠ k := by
  unfold nodeGate at hrun
  simp only [] at hrun
  repeat' split at hrun
  all_goals try (exfalso; simp at hrun; done)
  all_goals
    rw [Prod.mk.injEq] at hrun
  all_goals
    obtain ⟨h1, -⟩ := hrun
  all_goals
    injection h1 with h1
  all_goals
    injection h1 with hstat hbody
  all_goals
    subst hbody
  all_goals
    first
    | (have hsw : jsStartsWith
          (generateAgentKey hmac env.random
            (jsOr cfg.challengeSecret (str ("default-secret-change-me")))) keyPref
          = true := by
        unfold generateAgentKey
        exact jsStartsWith_append _ _
       obtain ⟨hlen, hpre, hne⟩ := memo_spec hmac hhex _ _ hsw
       exact ⟨_, _, rfl, rfl, rfl, hlen, hpre, hne⟩)
    | (have hvkey : Node.isValidAgentKey hmac (jsOr req.agentKey [])
          (jsOr cfg.challengeSecret (str ("default-secret-change-me"))) = .ok true := by
        assumption
       have hsw := validKey_startsWith hmac (jsOr req.agentKey [])
        (jsOr cfg.challengeSecret (str ("default-secret-change-me"))) hvkey
       obtain ⟨hlen, hpre, hne⟩ := memo_spec hmac hhex _ _ hsw
       exact ⟨_, _, rfl, rfl, rfl, hlen, hpre, hne⟩)

theorem C1_witness :
    ∃ k p, (body402Retry hmacModel secretC keyC mcC).your_key = some k
      ∧ (body402Retry hmacModel secretC keyC mcC).payment = some p
      ∧ p.memo = derivePaymentMemo hmacModel k
          (jsOr cfgVerifC.challengeSecret (str ("default-secret-change-me")))
      ∧ p.memo.length = 19
      ∧ jsStartsWith p.memo (str ("gm_")) = true
      ∧ p.memo ≠ k :=
  C1_node_memo hmacModel hexOut_hmacModel cfgVerifC (envC respUnpaidC) stMcC
    (reqKeyC keyC) (body402Retry hmacModel secretC keyC mcC)
    (nodeGate hmacModel cfgVerifC (envC respUnpaidC) stMcC (reqKeyC keyC)).2
    (by rfl)

def envEdgeC : EdgeEnvVars :=
  { CHALLENGE_SECRET := some secretC, HOME_WALLET_ADDRESS := some walletC,
    DEBUG := some (str ("false")), SOLANA_RPC_URL := none, USDC_MINT := none }

def orcEdgeC : EdgeOracles :=
  { now := 0, random := r16C, clientIp := str ("1.2.3.4"), chainPaid := false }

def stEdgeC : EdgeState := { paymentCache := [], rateLimitHits := [] }

/-- A non-browser `GET /data` at the edge carrying `X-Agent-Key: keyC`. -/
def reqEdgeKeyC : EdgeReq :=
  { pathname := str ("/data"), search := [], method := str ("GET"),
    agentKey := some keyC, secFetchMode := none, secFetchDest := none,
    cookieHeader := none, userAgent := none,
    formNonce := none, formReturnTo := none, formFp := none }

/-- The payment block of the edge unpaid-retry 402: the memo is the raw
agent key, not a derived `gm_` memo. -/
def pay402EdgeC : Payment :=
  { chain := str ("solana"), network := str ("mainnet-beta"),
    token := str ("USDC"), amount := MIN_PAYMENT_STR,
    wallet_address := walletC, memo := keyC, instructions := none }

def body402EdgeC : Body :=
  { error := str ("payment_required"), message := msg402RetryEdge,
    your_key := some keyC, payment := some pay402EdgeC, details := none }

/-- C1 (counterexample): the edge gate's unpaid-retry 402 uses the raw agent
key itself as `payment.memo`: it does not start with `gm_` and differs from
the derived `gm_` memo the claim prescribes. -/
theorem C1_counterexample :
    (edgeGate hmacModel macModel [] MIN_PAYMENT_STR envEdgeC orcEdgeC
        stEdgeC reqEdgeKeyC).1
      = .json 402 body402EdgeC
    ∧ pay402EdgeC.memo = keyC
    ∧ jsStartsWith pay402EdgeC.memo (str ("gm_")) = false
    ∧ pay402EdgeC.memo ≠ derivePaymentMemo hmacModel keyC secretC := by decide
